import Mathlib

/-!
Verification of the rubric-based speech-scoring engine
(`src/EAI/speech_evaluator.py`, class `SpeechEvaluator`).

The Python code is shallowly embedded: strings become `String` / `List Char`,
Python floats become `ℚ` (the one call to `math.sqrt`, inside
`_evaluate_time_balance`, is modelled by an abstract parameter `sqrtQ`,
since exact square roots are irrational), dictionaries with fixed keys
become structures, and `dict.get`/`dict[...]` on optional keys become
`Option` with explicit defaulting / error propagation.
-/

namespace Speech

/-! ### Character classes and low-level string utilities -/

/-- ASCII lower-casing of a single character, mirroring what Python's
`str.lower()` does on the ASCII letters (the texts handled by the
evaluator are ASCII + CJK, and CJK characters have no case). -/
def lowerChar (c : Char) : Char :=
  match c with
  | 'A' => 'a' | 'B' => 'b' | 'C' => 'c' | 'D' => 'd' | 'E' => 'e'
  | 'F' => 'f' | 'G' => 'g' | 'H' => 'h' | 'I' => 'i' | 'J' => 'j'
  | 'K' => 'k' | 'L' => 'l' | 'M' => 'm' | 'N' => 'n' | 'O' => 'o'
  | 'P' => 'p' | 'Q' => 'q' | 'R' => 'r' | 'S' => 's' | 'T' => 't'
  | 'U' => 'u' | 'V' => 'v' | 'W' => 'w' | 'X' => 'x' | 'Y' => 'y'
  | 'Z' => 'z'
  | c => c

/-- `str.lower()` on a whole string. -/
def lowerStr (s : String) : String := String.mk (s.data.map lowerChar)

/-- Python whitespace (the `\s` class / `str.split()` separators, ASCII part). -/
def isSpaceChar (c : Char) : Bool :=
  c = ' ' || c = '\t' || c = '\n' || c = '\x0d' || c = '\x0b' || c = '\x0c'

/-- CJK ideographs, the `[一-鿿]` regex class. -/
def isCJK (c : Char) : Bool := 0x4e00 ≤ c.toNat && c.toNat ≤ 0x9fff

/-- ASCII lowercase letter, the `[a-z]` regex class. -/
def isLower (c : Char) : Bool := 'a' ≤ c && c ≤ 'z'

/-- ASCII uppercase letter, the `[A-Z]` regex class. -/
def isUpper (c : Char) : Bool := 'A' ≤ c && c ≤ 'Z'

/-- Python's regex word class `\w` for the texts this evaluator handles:
ASCII alphanumerics, underscore, and CJK ideographs. -/
def isWordChar (c : Char) : Bool := c.isAlphanum || c = '_' || isCJK c

/-- `needle in hay` for Python strings: substring containment. -/
def containsSub (needle : List Char) : List Char → Bool
  | [] => needle.isEmpty
  | c :: t => needle.isPrefixOf (c :: t) || containsSub needle t

/-- `hay.count(needle)`: number of non-overlapping occurrences, scanning
left to right and skipping past each match, exactly as Python `str.count`. -/
def countSub (needle : List Char) (hay : List Char) : Nat :=
  if needle = [] then hay.length + 1
  else
    match hay with
    | [] => 0
    | c :: t =>
      if needle.isPrefixOf (c :: t) then
        1 + countSub needle ((c :: t).drop needle.length)
      else countSub needle t
  termination_by hay.length
  decreasing_by
    · simp only [List.length_drop, List.length_cons]
      cases needle with
      | nil => simp_all
      | cons a b => simp only [List.length_cons]; omega
    · simp [Nat.lt_succ_iff]

/-- Helper for `maximalRuns`: returns the run at the head of the list
(possibly empty) and the remaining completed runs. -/
def runsAux (p : Char → Bool) : List Char → List Char × List (List Char)
  | [] => ([], [])
  | c :: cs =>
    let r := runsAux p cs
    if p c then (c :: r.1, r.2)
    else ([], if r.1.isEmpty then r.2 else r.1 :: r.2)

/-- The maximal runs of characters satisfying `p`, in order. This is how the
embedding realises regexes of the form `[class]+` (and the token runs that
`\b`-delimited patterns quantify over). -/
def maximalRuns (p : Char → Bool) (cs : List Char) : List (List Char) :=
  let r := runsAux p cs
  if r.1.isEmpty then r.2 else r.1 :: r.2

/-- Whether the first character of the remaining input is a word character
(`false` at end of input); this is how a trailing `\b` is tested. -/
def headIsWord : List Char → Bool
  | [] => false
  | c :: _ => isWordChar c

/-- Whether the last character of a (matched) list is a word character. -/
def lastIsWord (cs : List Char) : Bool :=
  match cs.getLast? with
  | some c => isWordChar c
  | none => false

/-- `str.split()` with no arguments: whitespace-delimited words. -/
def pySplit (s : String) : List (List Char) :=
  maximalRuns (fun c => !isSpaceChar c) s.data

/-- `str.strip()`: drop leading and trailing whitespace. -/
def stripChars (cs : List Char) : List Char :=
  ((cs.dropWhile isSpaceChar).reverse.dropWhile isSpaceChar).reverse

/-- `s.endswith(c)` for a single-character suffix. -/
def endsWithChar (cs : List Char) (c : Char) : Bool :=
  match cs.getLast? with
  | some d => d = c
  | none => false

/-- `' '.join(xs)`. -/
def joinSpaceL : List (List Char) → List Char
  | [] => []
  | [x] => x
  | x :: xs => x ++ ' ' :: joinSpaceL xs

/-- `' '.join(texts)` at the `String` level. -/
def joinSpace (xs : List String) : String := String.mk (joinSpaceL (xs.map String.data))

/-- `float(b)` for a Python bool used in a score average. -/
def b2q (b : Bool) : ℚ := if b then 1 else 0

/-! ### Kernel-computable rational arithmetic

Python's float arithmetic is modelled by exact arithmetic on `ℚ`. The
library operations `Rat.add`, `Rat.mul`, … are `@[irreducible]`, so the
embedding uses the following wrappers, built from `Rat.divInt` on
numerators and denominators, which the kernel can evaluate; the bridge
theorems `qadd_eq`, … below identify them with the ordinary operations. -/

/-- Rational division, kernel-computable (`qdiv a b = a / b`). -/
def qdiv (a b : ℚ) : ℚ := Rat.divInt (a.num * b.den) ((a.den : Int) * b.num)

/-- Rational multiplication, kernel-computable (`qmul a b = a * b`). -/
def qmul (a b : ℚ) : ℚ := Rat.divInt (a.num * b.num) ((a.den : Int) * b.den)

/-- Rational addition, kernel-computable (`qadd a b = a + b`). -/
def qadd (a b : ℚ) : ℚ := Rat.divInt (a.num * b.den + b.num * a.den) ((a.den : Int) * b.den)

/-- Rational subtraction, kernel-computable (`qsub a b = a - b`). -/
def qsub (a b : ℚ) : ℚ := Rat.divInt (a.num * b.den - b.num * a.den) ((a.den : Int) * b.den)

/-- `sum(l)` over rationals, kernel-computable. -/
def qsum (l : List ℚ) : ℚ := l.foldr qadd 0

/-! ### Number extraction (`re.search(r'(\d+\.?\d*)', s)`) -/

/-- Numeric value of an ASCII digit. -/
def digitVal (c : Char) : Nat := c.toNat - 48

/-- Value of a digit string read in base 10. -/
def natFromDigits (ds : List Char) : Nat :=
  ds.foldl (fun a c => 10 * a + digitVal c) 0

/-- Value of the fractional digits `d₁…dₖ` after a decimal point. -/
def fracFromDigits (ds : List Char) : ℚ :=
  qdiv (natFromDigits ds : ℚ) ((10 ^ ds.length : ℕ) : ℚ)

/-- First match of `\d+\.?\d*` in the string, as a rational: the match starts
at the first digit, takes the maximal digit run, then optionally a dot and a
further maximal digit run. `none` when the string has no digit. -/
def extractNumber (cs : List Char) : Option ℚ :=
  match cs.dropWhile (fun c => !c.isDigit) with
  | [] => none
  | ds =>
    let ip := ds.takeWhile Char.isDigit
    let rest := ds.dropWhile Char.isDigit
    match rest with
    | '.' :: r2 => some (qadd (natFromDigits ip : ℚ) (fracFromDigits (r2.takeWhile Char.isDigit)))
    | _ => some ((natFromDigits ip : ℚ))

/-! ### `SpeechEvaluator._parse_duration` -/

/-- Embeds `SpeechEvaluator._parse_duration`: lower-case and strip the string,
extract the first decimal number, then branch on the unit markers exactly as
the source does (`'second' in s or s.endswith('s')` first, then
`'hour' in s or s.endswith('h')`, else minutes). -/
def parse_duration (s : String) : ℚ :=
  if s = "" then 0
  else
    let t := stripChars (s.data.map lowerChar)
    match extractNumber t with
    | none => 0
    | some n =>
      if containsSub "second".data t || endsWithChar t 's' then qdiv n 60
      else if containsSub "hour".data t || endsWithChar t 'h' then qmul n 60
      else n

/-! ### `SpeechEvaluator._extract_keywords` -/

/-- Matches of `\b[a-z]{4,}\b`: maximal word-character runs made entirely of
ASCII lowercase letters, of length at least 4 (inside a run there is no word
boundary, so only whole runs can match). -/
def english_words (t : List Char) : List (List Char) :=
  (maximalRuns isWordChar t).filter (fun r => r.all isLower && decide (4 ≤ r.length))

/-- Greedy, non-overlapping matches of `{2,4}`-quantified CJK inside one
maximal CJK run: chunks of 4 while at least 2 characters remain. -/
def cjkChunks24 (run : List Char) : List (List Char) :=
  if 2 ≤ run.length then run.take 4 :: cjkChunks24 (run.drop 4) else []
  termination_by run.length
  decreasing_by simp only [List.length_drop]; omega

/-- Matches of `[一-鿿]{2,4}` over the whole text. -/
def chinese_words (t : List Char) : List (List Char) :=
  (maximalRuns isCJK t).flatMap cjkChunks24

/-- The stopword set of `_extract_keywords`. -/
def stopwords : List String :=
  ["the", "a", "an", "and", "or", "but", "in", "on", "at",
   "to", "for", "of", "with", "by", "from", "is", "are",
   "was", "were", "be", "been", "have", "has", "had",
   "this", "that", "these", "those", "will", "would",
   "这个", "那个", "可以", "我们", "他们", "什么", "怎么"]

/-- Embeds `SpeechEvaluator._extract_keywords`. The Python `Counter` is
represented by the token list itself (its key set is the list's `dedup`). -/
def extract_keywords (text : String) : List String :=
  let t := text.data.map lowerChar
  let eng := (english_words t).map (fun r => String.mk r)
  let chi := (chinese_words t).map (fun r => String.mk r)
  (eng ++ chi).filter (fun w => !(stopwords.contains w))

/-! ### `SpeechEvaluator._extract_key_concepts`

The four regexes of the source are realised as explicit scanners. The
scanners track whether the previous character is a word character (the `\b`
tests) and advance one character on a failed match, as `re.findall` does. -/

/-- Parses `[A-Z][a-z]+` greedily at the head of the list. -/
def parseCapWord : List Char → Option (List Char × List Char)
  | [] => none
  | c :: rest =>
    if isUpper c then
      let low := rest.takeWhile isLower
      if low.isEmpty then none
      else some (c :: low, rest.drop low.length)
    else none

/-- Greedily collects `(?:\s+[A-Z][a-z]+)*` groups; returns the matched
groups (each with its leading whitespace) and the remaining input. -/
def capSegsAux : Nat → List Char → List (List Char) × List Char
  | 0, cs => ([], cs)
  | fuel+1, cs =>
    let ws := cs.takeWhile isSpaceChar
    if ws.isEmpty then ([], cs)
    else
      match parseCapWord (cs.drop ws.length) with
      | none => ([], cs)
      | some (w, rest) =>
        let r := capSegsAux fuel rest
        ((ws ++ w) :: r.1, r.2)

/-- Tries `[A-Z][a-z]+(?:\s+[A-Z][a-z]+)*\b` at the current position (the
caller guarantees the `\b` before it). When the trailing `\b` fails, the
regex engine backtracks by dropping the last whitespace+word group — after
one drop the match ends before whitespace, so one drop always suffices. -/
def capMatchAt (cs : List Char) : Option (List Char × List Char) :=
  match parseCapWord cs with
  | none => none
  | some (w1, r1) =>
    let sr := capSegsAux r1.length r1
    let segs := sr.1
    let rest := sr.2
    if headIsWord rest then
      match segs with
      | [] => none
      | _ => some (w1 ++ segs.dropLast.flatten, segs.getLastD [] ++ rest)
    else some (w1 ++ segs.flatten, rest)

/-- Scanner for `\b[A-Z][a-z]+(?:\s+[A-Z][a-z]+)*\b`: walks the text keeping
track of whether the previous character was a word character. -/
def scanCapSeq : Nat → Bool → List Char → List (List Char)
  | 0, _, _ => []
  | _+1, _, [] => []
  | fuel+1, prevW, c :: rest =>
    if !prevW && isUpper c then
      match capMatchAt (c :: rest) with
      | some (m, r) => m :: scanCapSeq fuel true r
      | none => scanCapSeq fuel (isWordChar c) rest
    else scanCapSeq fuel (isWordChar c) rest

/-- Parses `[a-z]+` greedily at the head of the list. -/
def parseLowerWord (cs : List Char) : Option (List Char × List Char) :=
  let w := cs.takeWhile isLower
  if w.isEmpty then none else some (w, cs.drop w.length)

/-- Greedily collects `(?:-[a-z]+)*` groups. -/
def hyphSegsAux : Nat → List Char → List (List Char) × List Char
  | 0, cs => ([], cs)
  | fuel+1, cs =>
    match cs with
    | '-' :: r1 =>
      (match parseLowerWord r1 with
       | none => ([], cs)
       | some (w, rest) =>
         let r := hyphSegsAux fuel rest
         (('-' :: w) :: r.1, r.2))
    | _ => ([], cs)

/-- Tries `[a-z]+-[a-z]+(?:-[a-z]+)*\b` at the current position. At least
one hyphenated group is mandatory; a failed trailing `\b` drops the last
group (the match then ends before a hyphen, a non-word character). -/
def hyphMatchAt (cs : List Char) : Option (List Char × List Char) :=
  match parseLowerWord cs with
  | none => none
  | some (w1, r1) =>
    let sr := hyphSegsAux r1.length r1
    let segs := sr.1
    let rest := sr.2
    if segs.isEmpty then none
    else if headIsWord rest then
      match segs.dropLast with
      | [] => none
      | kept => some (w1 ++ kept.flatten, segs.getLastD [] ++ rest)
    else some (w1 ++ segs.flatten, rest)

/-- Scanner for `\b[a-z]+-[a-z]+(?:-[a-z]+)*\b`. -/
def scanHyph : Nat → Bool → List Char → List (List Char)
  | 0, _, _ => []
  | _+1, _, [] => []
  | fuel+1, prevW, c :: rest =>
    if !prevW && isLower c then
      match hyphMatchAt (c :: rest) with
      | some (m, r) => m :: scanHyph fuel true r
      | none => scanHyph fuel (isWordChar c) rest
    else scanHyph fuel (isWordChar c) rest

/-- Matches of `\b[A-Z]{2,}\b`: maximal word runs that are entirely ASCII
uppercase, of length at least 2. -/
def acronyms (t : List Char) : List (List Char) :=
  (maximalRuns isWordChar t).filter (fun r => r.all isUpper && decide (2 ≤ r.length))

/-- Greedy `{3,8}` chunking of one maximal CJK run. -/
def cjkChunks38 (run : List Char) : List (List Char) :=
  if 3 ≤ run.length then run.take 8 :: cjkChunks38 (run.drop 8) else []
  termination_by run.length
  decreasing_by simp only [List.length_drop]; omega

/-- Embeds `SpeechEvaluator._extract_key_concepts`: Title-Case sequences,
hyphenated lowercase compounds, CJK runs of 3–8, and acronyms; the union
(a Python `set`, here a deduplicated list) filtered to length ≥ 3. -/
def extract_key_concepts (text : String) : List String :=
  let t := text.data
  let english := (scanCapSeq (t.length + 1) false t).map String.mk
              ++ (scanHyph (t.length + 1) false t).map String.mk
  let chinese := ((maximalRuns isCJK t).flatMap cjkChunks38).map String.mk
  let abbrevs := (acronyms t).map String.mk
  ((english ++ chinese ++ abbrevs).dedup).filter (fun c => decide (3 ≤ c.length))

/-! ### `SpeechEvaluator._calculate_coverage` -/

/-- Embeds `SpeechEvaluator._calculate_coverage`. Both the `Counter` branch
and the `set` branch of the source compute `|source ∩ target| / |source|`
on key sets; callers pass the key sets (deduplicated lists). An empty
source yields 1.0. -/
def calculate_coverage (source target : List String) : ℚ :=
  if source.isEmpty then 1
  else qdiv ((source.filter (fun k => target.contains k)).length : ℚ) ((source.length : ℕ) : ℚ)

/-! ### The data model

A speech payload carries `plan` (list of items with `slide`, optional
`title`/`duration` — always read through `.get` with a default — and an
unused `content`) and `script` (list of items with `slide`, `text`). Keys
that the evaluator subscripts directly (`['slide']`, `['text']`) are plain
fields here; the dynamic-access layer for missing keys is separate, below. -/

/-- One item of the speech plan. `content` is never read by the evaluator
and is omitted. -/
structure PlanItem where
  slide : Int
  title : Option String
  duration : Option String

/-- One item of the speech script. -/
structure ScriptItem where
  slide : Int
  text : String

/-! ### Content-consistency scorer -/

/-- Embeds `SpeechEvaluator._check_slide_title_coverage`. -/
def check_slide_title_coverage (plan : List PlanItem) (script : List ScriptItem) : ℚ :=
  let plan_titles := plan.filterMap (fun p =>
    match p.title with
    | some t => if t = "" then none else some t
    | none => none)
  if plan_titles.isEmpty then 1
  else
    let speech_text := (joinSpace (script.map (fun s => s.text))).data.map lowerChar
    let covered := plan_titles.countP (fun title =>
      let title_words := maximalRuns isWordChar (title.data.map lowerChar)
      let matchCount := title_words.countP (fun w =>
        containsSub w speech_text && decide (3 < w.length))
      decide (qdiv (title_words.length : ℚ) 2 ≤ (matchCount : ℚ)))
    qdiv (covered : ℚ) (plan_titles.length : ℚ)

/-- Third branch of the fact regex, `\b\d+\.\d+\b`, tried after the first
two at the same position: a dot, a further digit run, then `\b`. -/
def factDecMatch (run rest : List Char) : Option (List Char × List Char) :=
  match rest with
  | '.' :: r2 =>
    let run2 := r2.takeWhile Char.isDigit
    if run2.isEmpty then none
    else if headIsWord (r2.drop run2.length) then none
    else some (run ++ '.' :: run2, r2.drop run2.length)
  | _ => none

/-- Tries `\b\d{4}\b|\b\d+%\b|\b\d+\.\d+\b` at the current position (the
caller guarantees the `\b` and that the head is a digit), in alternation
order. For `\d+%`, `\b` after `%` (a non-word character) holds exactly when
the next character is a word character. -/
def factNumMatchAt (cs : List Char) : Option (List Char × List Char) :=
  let run := cs.takeWhile Char.isDigit
  if run.isEmpty then none
  else
    let rest := cs.drop run.length
    if run.length = 4 && !(headIsWord rest) then some (run, rest)
    else
      match rest with
      | '%' :: r2 =>
        if headIsWord r2 then some (run ++ ['%'], r2)
        else factDecMatch run rest
      | _ => factDecMatch run rest

/-- Scanner for the fact-number regex over the whole text. -/
def scanFactNums : Nat → Bool → List Char → List (List Char)
  | 0, _, _ => []
  | _+1, _, [] => []
  | fuel+1, prevW, c :: rest =>
    if !prevW && c.isDigit then
      match factNumMatchAt (c :: rest) with
      | some (m, r) => m :: scanFactNums fuel (lastIsWord m) r
      | none => scanFactNums fuel true rest
    else scanFactNums fuel (isWordChar c) rest

/-- Tries `[A-Z][a-z]+\s+[A-Z][a-z]+\b` at the current position. -/
def nameMatchAt (cs : List Char) : Option (List Char × List Char) :=
  match parseCapWord cs with
  | none => none
  | some (w1, r1) =>
    let ws := r1.takeWhile isSpaceChar
    if ws.isEmpty then none
    else
      match parseCapWord (r1.drop ws.length) with
      | none => none
      | some (w2, r2) =>
        if headIsWord r2 then none else some (w1 ++ ws ++ w2, r2)

/-- Scanner for `\b[A-Z][a-z]+\s+[A-Z][a-z]+\b` (proper-name bigrams). -/
def scanNames : Nat → Bool → List Char → List (List Char)
  | 0, _, _ => []
  | _+1, _, [] => []
  | fuel+1, prevW, c :: rest =>
    if !prevW && isUpper c then
      match nameMatchAt (c :: rest) with
      | some (m, r) => m :: scanNames fuel true r
      | none => scanNames fuel (isWordChar c) rest
    else scanNames fuel (isWordChar c) rest

/-- Embeds `SpeechEvaluator._check_fact_consistency`: facts extracted from
the slides that also occur verbatim in the joined speech text. -/
def check_fact_consistency (slides : String) (script : List ScriptItem) : ℚ :=
  let sd := slides.data
  let slides_numbers := scanFactNums (sd.length + 1) false sd
  let slides_names := scanNames (sd.length + 1) false sd
  let speech_text := joinSpace (script.map (fun s => s.text))
  let total_facts := slides_numbers.length + slides_names.length
  if total_facts = 0 then 1
  else
    let matched_facts := slides_numbers.countP (fun n => containsSub n speech_text.data)
                       + slides_names.countP (fun n => containsSub n speech_text.data)
    qdiv (matched_facts : ℚ) (total_facts : ℚ)

/-- Embeds `SpeechEvaluator._detect_hallucination_risk`. The arguments are
the keyword token lists (Python `Counter`s); a `Counter`'s truthiness and
length are those of its key set, i.e. of the deduplicated list. -/
def detect_hallucination_risk (source_keywords target_keywords : List String) : ℚ :=
  let skeys := source_keywords.dedup
  let tkeys := target_keywords.dedup
  if tkeys.isEmpty then 0
  else
    let new_keywords := tkeys.filter (fun k => !(skeys.contains k))
    let risk_ratio := qdiv (new_keywords.length : ℚ) (tkeys.length : ℚ)
    if risk_ratio ≤ qdiv 3 10 then qmul (qdiv risk_ratio (qdiv 3 10)) (qdiv 3 10)
    else qadd (qdiv 3 10) (qmul (qdiv (qsub risk_ratio (qdiv 3 10)) (qdiv 7 10)) (qdiv 7 10))

/-- Result dictionary of `evaluate_content_consistency`. -/
structure ContentResult where
  keyword_coverage : ℚ
  concept_coverage : ℚ
  slide_title_coverage : ℚ
  fact_accuracy : ℚ
  hallucination_risk_score : ℚ
  overall_score : ℚ

/-- `' '.join([s['text'] for s in script])`, the joined speech text. -/
def speechText (script : List ScriptItem) : String :=
  joinSpace (script.map (fun s => s.text))

/-- The `keyword_coverage` entry: coverage of slide keywords by speech
keywords (key sets of the two `Counter`s). -/
def cc_keyword_coverage (slides : String) (script : List ScriptItem) : ℚ :=
  calculate_coverage (extract_keywords slides).dedup (extract_keywords (speechText script)).dedup

/-- The `concept_coverage` entry. -/
def cc_concept_coverage (slides : String) (script : List ScriptItem) : ℚ :=
  calculate_coverage (extract_key_concepts slides) (extract_key_concepts (speechText script))

/-- The `hallucination_risk_score` entry. -/
def cc_hallucination (slides : String) (script : List ScriptItem) : ℚ :=
  detect_hallucination_risk (extract_keywords slides) (extract_keywords (speechText script))

/-- The `overall_score` entry of content consistency: the mean of the five
sub-metrics (with the risk entering as `1 − risk`). -/
def cc_overall (slides : String) (plan : List PlanItem) (script : List ScriptItem) : ℚ :=
  qdiv (qadd (cc_keyword_coverage slides script) (qadd (cc_concept_coverage slides script)
    (qadd (check_slide_title_coverage plan script) (qadd (check_fact_consistency slides script)
      (qsub 1 (cc_hallucination slides script)))))) 5

/-- Embeds `SpeechEvaluator.evaluate_content_consistency`. -/
def evaluate_content_consistency (slides : String) (plan : List PlanItem)
    (script : List ScriptItem) : ContentResult :=
  { keyword_coverage := cc_keyword_coverage slides script
    concept_coverage := cc_concept_coverage slides script
    slide_title_coverage := check_slide_title_coverage plan script
    fact_accuracy := check_fact_consistency slides script
    hallucination_risk_score := cc_hallucination slides script
    overall_score := cc_overall slides plan script }

/-! ### Structure scorer -/

/-- `all(l[i] <= l[i+1] for i in range(len(l)-1))`. -/
def nonDecreasing : List Int → Bool
  | [] => true
  | [_] => true
  | a :: b :: t => decide (a ≤ b) && nonDecreasing (b :: t)

/-- Embeds `SpeechEvaluator._evaluate_coherence` (subscripts `['slide']`
on every plan and script item). -/
def evaluate_coherence (plan : List PlanItem) (script : List ScriptItem) : ℚ :=
  let slide_numbers := plan.map (fun p => p.slide)
  let script_slides := script.map (fun s => s.slide)
  let is_sequential := nonDecreasing slide_numbers
  let script_sequential := nonDecreasing script_slides
  let plan_slides := slide_numbers.dedup
  let script_slide_set := script_slides.dedup
  let coverage :=
    if plan_slides.isEmpty then 1
    else qdiv ((plan_slides.filter (fun x => script_slide_set.contains x)).length : ℚ)
              (plan_slides.length : ℚ)
  qdiv (qadd (b2q is_sequential) (qadd (b2q script_sequential) coverage)) 3

/-- The repeated loop `for p in plan: d = parse(p.get('duration','0 minute'));
if d > 0: durations.append(d)`. -/
def timedDurations (plan : List PlanItem) : List ℚ :=
  (plan.map (fun p => parse_duration (p.duration.getD "0 minute"))).filter
    (fun d => decide (0 < d))

/-- Embeds `SpeechEvaluator._evaluate_time_balance`. `math.sqrt` is the
abstract parameter `sqrtQ`; every property proved about this score holds
for an arbitrary `sqrtQ`. -/
def evaluate_time_balance (sqrtQ : ℚ → ℚ) (plan : List PlanItem) : ℚ :=
  let durations := timedDurations plan
  if durations.isEmpty || durations.length < 3 then 1
  else
    let mean := qdiv (qsum durations) (durations.length : ℚ)
    if mean = 0 then 0
    else
      let variance := qdiv (qsum (durations.map (fun x => qmul (qsub x mean) (qsub x mean))))
                           (durations.length : ℚ)
      let std_dev := sqrtQ variance
      let cv := qdiv std_dev mean
      min (max 0 (qsub 1 cv)) 1

/-- The transition-phrase list of `_evaluate_transitions`. -/
def transition_phrases : List String :=
  ["let\x27s", "next", "now", "moving", "turn to", "consider",
   "however", "therefore", "furthermore", "additionally",
   "in conclusion", "to summarize", "brings us to",
   "接下来", "现在", "然后", "因此", "此外", "总之",
   "让我们", "下面", "首先", "其次", "最后"]

/-- `text.split('.')[0] if '.' in text else text`, realised by a literal
embedding of `str.split`. -/
def splitOnChar (sep : Char) : List Char → List (List Char)
  | [] => [[]]
  | c :: t =>
    let r := splitOnChar sep t
    if c = sep then [] :: r
    else
      match r with
      | [] => [[c]]
      | h :: rest => (c :: h) :: rest

/-- The per-item test of `_evaluate_transitions`: lower-case the text, cut
at the first `'.'` when one is present, and look for any transition phrase
in the (re-lowered, as in the source) leading clause. -/
def transitionHit (text : String) : Bool :=
  let t := text.data.map lowerChar
  let first_sentence := if t.contains '.' then (splitOnChar '.' t).headD [] else t
  transition_phrases.any (fun ph => containsSub ph.data (first_sentence.map lowerChar))

/-- Embeds `SpeechEvaluator._evaluate_transitions`: the loop skips the item
at index 0 and counts transition hits among the rest. -/
def evaluate_transitions (script : List ScriptItem) : ℚ :=
  let transition_count := ((script.drop 1).filter (fun s => transitionHit s.text)).length
  let ideal_transitions : Int := (script.length : Int) - 1
  if 0 < ideal_transitions then qdiv (transition_count : ℚ) ((ideal_transitions : ℤ) : ℚ)
  else 1

/-- Introduction-style title test of `_evaluate_organization`. -/
def introTitleHit (p : PlanItem) : Bool :=
  let t := (p.title.getD "").data.map lowerChar
  containsSub "introduction".data t || containsSub "intro".data t

/-- Conclusion-style title test of `_evaluate_organization`. -/
def conclTitleHit (p : PlanItem) : Bool :=
  let t := (p.title.getD "").data.map lowerChar
  containsSub "conclusion".data t || containsSub "summary".data t ||
    containsSub "q&a".data t

/-- Embeds `SpeechEvaluator._evaluate_organization`: `any` over the
enumerated plan for an introduction-like or first item, `any` for a
conclusion-like or last item, and a has-body test `len(plan) >= 3`. -/
def evaluate_organization (plan : List PlanItem) : ℚ :=
  let has_intro := plan.enum.any (fun ip => introTitleHit ip.2 || ip.1 == 0)
  let has_conclusion := plan.enum.any (fun ip => conclTitleHit ip.2 || ip.1 == plan.length - 1)
  let has_body := decide (3 ≤ plan.length)
  qdiv (qadd (b2q has_intro) (qadd (b2q has_conclusion) (b2q has_body))) 3

/-- Result dictionary of `evaluate_structure` (named `structure_dim` here
because `structure` is a Lean keyword). -/
structure StructureResult where
  coherence_score : ℚ
  time_balance_score : ℚ
  transition_score : ℚ
  organization_score : ℚ
  overall_score : ℚ

/-- The `overall_score` entry of the structure dimension. -/
def structure_overall (sqrtQ : ℚ → ℚ) (plan : List PlanItem) (script : List ScriptItem) : ℚ :=
  qdiv (qadd (evaluate_coherence plan script) (qadd (evaluate_time_balance sqrtQ plan)
    (qadd (evaluate_transitions script) (evaluate_organization plan)))) 4

/-- Embeds `SpeechEvaluator.evaluate_structure`. -/
def evaluate_structure_dim (sqrtQ : ℚ → ℚ) (plan : List PlanItem)
    (script : List ScriptItem) : StructureResult :=
  { coherence_score := evaluate_coherence plan script
    time_balance_score := evaluate_time_balance sqrtQ plan
    transition_score := evaluate_transitions script
    organization_score := evaluate_organization plan
    overall_score := structure_overall sqrtQ plan script }

/-! ### Language-quality scorer -/

/-- The sentence-terminator class `[.!?。]` of `_evaluate_clarity` (the
source's character class lists `!` and `?` twice). -/
def sentenceTerm (c : Char) : Bool := c = '.' || c = '!' || c = '?' || c = '。'

/-- Embeds `SpeechEvaluator._evaluate_clarity`: split the joined script text
on sentence terminators, keep the pieces that are non-empty after stripping,
and band-score the mean number of whitespace-separated words per sentence. -/
def evaluate_clarity (script : List ScriptItem) : ℚ :=
  let all_text := joinSpace (script.map (fun s => s.text))
  let pieces := maximalRuns (fun c => !sentenceTerm c) all_text.data
  let sentences := pieces.filter (fun p => p.any (fun c => !isSpaceChar c))
  if sentences.isEmpty then 0
  else
    let avg_length := qdiv (qsum (sentences.map
        (fun p => ((maximalRuns (fun c => !isSpaceChar c) p).length : ℚ))))
      (sentences.length : ℚ)
    if 12 ≤ avg_length ∧ avg_length ≤ 25 then 1
    else if avg_length < 12 then qadd (qdiv 7 10) (qmul (qdiv avg_length 12) (qdiv 3 10))
    else max (qdiv 3 10) (qsub 1 (qdiv (qsub avg_length 25) 25))

/-- The conversational-marker list of `_evaluate_conversational_style`. -/
def conversational_markers : List String :=
  ["let\x27s", "we\x27ll", "i\x27m", "you\x27ll", "we\x27re", "i\x27ll",
   "today", "now", "here", "our", "my", "your",
   "everyone", "thank you", "hello", "hi",
   "大家", "我们", "今天", "现在", "让我们",
   "你们", "咱们", "这里", "那么"]

/-- Embeds `SpeechEvaluator._evaluate_conversational_style`. -/
def evaluate_conversational_style (script : List ScriptItem) : ℚ :=
  let all_text := (joinSpace (script.map (fun s => s.text))).data.map lowerChar
  let words := maximalRuns (fun c => !isSpaceChar c) all_text
  let marker_count := words.countP (fun w =>
    conversational_markers.any (fun m => containsSub m.data w))
  let ratio := if words.isEmpty then 0
    else qmul (qdiv (marker_count : ℚ) (words.length : ℚ)) 100
  if 2 ≤ ratio ∧ ratio ≤ 6 then 1
  else if ratio < 2 then qdiv ratio 2
  else max (qdiv 1 2) (qsub 1 (qdiv (qsub ratio 6) 10))

/-- Embeds `SpeechEvaluator._evaluate_vocabulary`: type-token ratio over
`\b[a-z]+\b` words and CJK runs of the lower-cased joined text. -/
def evaluate_vocabulary (script : List ScriptItem) : ℚ :=
  let all_text := (joinSpace (script.map (fun s => s.text))).data.map lowerChar
  let words := (maximalRuns isWordChar all_text).filter (fun r => r.all isLower)
  let chinese := maximalRuns isCJK all_text
  let all_words := (words ++ chinese).map String.mk
  if all_words.isEmpty then 0
  else
    let ttr := qdiv (all_words.dedup.length : ℚ) (all_words.length : ℚ)
    if qdiv 35 100 ≤ ttr ∧ ttr ≤ qdiv 65 100 then 1
    else if ttr < qdiv 35 100 then qdiv ttr (qdiv 35 100)
    else max (qdiv 6 10) (qsub 1 (qdiv (qsub ttr (qdiv 65 100)) (qdiv 35 100)))

/-- The fixed domain-term list of `_evaluate_professionalism` (12 terms). -/
def technical_terms : List String :=
  ["llm", "large language model", "fact-checking", "hallucination",
   "argumentation", "evidence", "verification", "benchmark",
   "algorithm", "dataset", "evaluation", "accuracy"]

/-- Embeds `SpeechEvaluator._evaluate_professionalism`. -/
def evaluate_professionalism (script : List ScriptItem) : ℚ :=
  let all_text := (joinSpace (script.map (fun s => s.text))).data.map lowerChar
  let term_usage := technical_terms.countP (fun term => containsSub term.data all_text)
  min (qdiv (term_usage : ℚ) (qdiv (technical_terms.length : ℚ) 2)) 1

/-- Result dictionary of `evaluate_language_quality`. -/
structure LanguageResult where
  clarity_score : ℚ
  conversational_score : ℚ
  vocabulary_richness : ℚ
  professionalism_score : ℚ
  overall_score : ℚ

/-- The `overall_score` entry of the language-quality dimension. -/
def language_overall (script : List ScriptItem) : ℚ :=
  qdiv (qadd (evaluate_clarity script) (qadd (evaluate_conversational_style script)
    (qadd (evaluate_vocabulary script) (evaluate_professionalism script)))) 4

/-- Embeds `SpeechEvaluator.evaluate_language_quality`. -/
def evaluate_language_quality (script : List ScriptItem) : LanguageResult :=
  { clarity_score := evaluate_clarity script
    conversational_score := evaluate_conversational_style script
    vocabulary_richness := evaluate_vocabulary script
    professionalism_score := evaluate_professionalism script
    overall_score := language_overall script }

/-! ### Detail-richness scorer -/

/-- Embeds `SpeechEvaluator._calculate_expansion_ratio`. -/
def calculate_expansion_ratio (slides : String) (script : List ScriptItem) : ℚ :=
  let slides_words := (pySplit slides).length
  let speech_words := (pySplit (joinSpace (script.map (fun s => s.text)))).length
  if slides_words = 0 then 0
  else
    let ratio := qdiv (speech_words : ℚ) (slides_words : ℚ)
    if qdiv 3 2 ≤ ratio ∧ ratio ≤ 3 then 1
    else if ratio < qdiv 3 2 then qdiv ratio (qdiv 3 2)
    else max (qdiv 1 2) (qsub 1 (qdiv (qsub ratio 3) 3))

/-- The example-indicator list of `_check_example_usage`. -/
def example_indicators : List String :=
  ["example", "for instance", "such as", "like",
   "consider", "let\x27s take", "case", "illustrate",
   "例如", "比如", "举例", "案例", "考虑"]

/-- Embeds `SpeechEvaluator._check_example_usage`: total (non-overlapping)
occurrence counts over the lower-cased joined text. -/
def check_example_usage (script : List ScriptItem) : ℚ :=
  let all_text := (joinSpace (script.map (fun s => s.text))).data.map lowerChar
  let example_count := qsum (example_indicators.map
    (fun ind => ((countSub ind.data all_text : ℕ) : ℚ)))
  let ideal_examples := qdiv (script.length : ℚ) (qdiv 9 2)
  min (qdiv example_count (max ideal_examples 1)) 1

/-- The explanation-marker list of `_evaluate_explanations`. -/
def explanation_markers : List String :=
  ["this means", "in other words", "specifically",
   "that is", "namely", "essentially", "simply put",
   "也就是说", "换句话说", "具体来说", "简单来说"]

/-- Embeds `SpeechEvaluator._evaluate_explanations`. -/
def evaluate_explanations (script : List ScriptItem) : ℚ :=
  let all_text := (joinSpace (script.map (fun s => s.text))).data.map lowerChar
  let explanation_count := qsum (explanation_markers.map
    (fun m => ((countSub m.data all_text : ℕ) : ℚ)))
  let ideal_explanations := qdiv (script.length : ℚ) 3
  min (qdiv explanation_count (max ideal_explanations 1)) 1

/-- The context-keyword list of `_evaluate_context`. -/
def context_keywords : List String :=
  ["background", "motivation", "why", "important", "challenge",
   "problem", "goal", "objective", "significance",
   "背景", "动机", "为什么", "重要", "挑战", "问题", "目标", "意义"]

/-- Embeds `SpeechEvaluator._evaluate_context`: distinct keyword hits / 4,
capped at 1. -/
def evaluate_context (script : List ScriptItem) : ℚ :=
  let all_text := (joinSpace (script.map (fun s => s.text))).data.map lowerChar
  let context_count := context_keywords.countP (fun k => containsSub k.data all_text)
  min (qdiv (context_count : ℚ) 4) 1

/-- Result dictionary of `evaluate_detail_richness`. -/
structure DetailResult where
  expansion_ratio_score : ℚ
  example_usage_score : ℚ
  explanation_quality : ℚ
  context_provision : ℚ
  overall_score : ℚ

/-- The `overall_score` entry of the detail-richness dimension. -/
def detail_overall (slides : String) (script : List ScriptItem) : ℚ :=
  qdiv (qadd (calculate_expansion_ratio slides script) (qadd (check_example_usage script)
    (qadd (evaluate_explanations script) (evaluate_context script)))) 4

/-- Embeds `SpeechEvaluator.evaluate_detail_richness`. -/
def evaluate_detail_richness (slides : String) (script : List ScriptItem) : DetailResult :=
  { expansion_ratio_score := calculate_expansion_ratio slides script
    example_usage_score := check_example_usage script
    explanation_quality := evaluate_explanations script
    context_provision := evaluate_context script
    overall_score := detail_overall slides script }

/-! ### Time-management scorer -/

/-- Embeds `SpeechEvaluator._calculate_total_time`. -/
def calculate_total_time (plan : List PlanItem) : ℚ :=
  qsum (plan.map (fun p => parse_duration (p.duration.getD "0 minute")))

/-- Embeds `SpeechEvaluator._evaluate_duration_appropriateness`. -/
def evaluate_duration_appropriateness (plan : List PlanItem) (total_minutes : ℚ) : ℚ :=
  let num_slides := plan.length
  let ideal_min := qmul (num_slides : ℚ) 1
  let ideal_max := qmul (num_slides : ℚ) (qdiv 5 2)
  if ideal_min ≤ total_minutes ∧ total_minutes ≤ ideal_max then 1
  else if total_minutes < ideal_min then qdiv total_minutes ideal_min
  else max (qdiv 2 5) (qsub 1 (qdiv (qsub total_minutes ideal_max) ideal_max))

/-- Embeds `SpeechEvaluator._evaluate_time_distribution`. -/
def evaluate_time_distribution (plan : List PlanItem) : ℚ :=
  let durations := timedDurations plan
  if durations.length < 3 then 1
  else
    let intro_ok := decide (durations.headD 0 ≤ 2)
    let outro_ok := decide (durations.getLastD 0 ≤ 2)
    let middle_durations := if 2 < durations.length then (durations.drop 1).dropLast
      else durations
    let middle_ok := middle_durations.all (fun d => decide (1 ≤ d))
    qdiv (qadd (b2q intro_ok) (qadd (b2q outro_ok) (b2q middle_ok))) 3

/-- Embeds `SpeechEvaluator._evaluate_pace`: an item is extreme when its
parsed duration is `> 2 × mean` or `< 0.5 × mean`. -/
def evaluate_pace (plan : List PlanItem) : ℚ :=
  let durations := timedDurations plan
  if durations.isEmpty then 1
  else
    let mean := qdiv (qsum durations) (durations.length : ℚ)
    let extreme_count := durations.countP (fun d =>
      decide (qmul mean 2 < d) || decide (d < qmul mean (qdiv 1 2)))
    max 0 (qsub 1 (qdiv (extreme_count : ℚ) (durations.length : ℚ)))

/-- Result dictionary of `evaluate_time_management`. `total_minutes` is a
reported datum, not a 0–1 sub-metric. -/
structure TimeResult where
  total_minutes : ℚ
  duration_appropriateness : ℚ
  time_distribution_score : ℚ
  pace_consistency : ℚ
  overall_score : ℚ

/-- The `duration_appropriateness` entry at the total computed from the plan. -/
def tm_duration_appropriateness (plan : List PlanItem) : ℚ :=
  evaluate_duration_appropriateness plan (calculate_total_time plan)

/-- The `overall_score` entry of the time-management dimension. -/
def time_overall (plan : List PlanItem) : ℚ :=
  qdiv (qadd (tm_duration_appropriateness plan)
    (qadd (evaluate_time_distribution plan) (evaluate_pace plan))) 3

/-- Embeds `SpeechEvaluator.evaluate_time_management`. -/
def evaluate_time_management (plan : List PlanItem) : TimeResult :=
  { total_minutes := calculate_total_time plan
    duration_appropriateness := tm_duration_appropriateness plan
    time_distribution_score := evaluate_time_distribution plan
    pace_consistency := evaluate_pace plan
    overall_score := time_overall plan }

/-! ### Aggregation, weights and grading -/

/-- Weight of the content-consistency dimension. -/
def weight_content : ℚ := qdiv 30 100

/-- Weight of the structure dimension. -/
def weight_structure : ℚ := qdiv 25 100

/-- Weight of the language-quality dimension. -/
def weight_language : ℚ := qdiv 20 100

/-- Weight of the detail-richness dimension. -/
def weight_detail : ℚ := qdiv 15 100

/-- Weight of the time-management dimension. -/
def weight_time : ℚ := qdiv 10 100

/-- Embeds `SpeechEvaluator._get_grade`: strict-descending threshold lookup. -/
def get_grade (score : ℚ) : String :=
  if qdiv 90 100 ≤ score then "A+ (优秀)"
  else if qdiv 85 100 ≤ score then "A (优秀)"
  else if qdiv 80 100 ≤ score then "B+ (良好)"
  else if qdiv 75 100 ≤ score then "B (良好)"
  else if qdiv 70 100 ≤ score then "C+ (中等)"
  else if qdiv 65 100 ≤ score then "C (中等)"
  else if qdiv 60 100 ≤ score then "D (及格)"
  else "F (不及格)"

/-- Result of `evaluate_all` (the grade string and the five dimension
dictionaries; the weights are the fixed constants above). -/
structure EvalResult where
  content_consistency : ContentResult
  structure_dim : StructureResult
  language_quality : LanguageResult
  detail_richness : DetailResult
  time_management : TimeResult
  overall_score : ℚ
  grade : String

/-- The weighted overall score of `evaluate_all`, summed as the source's
`sum(results[key]['overall_score'] * weights[key] for key in weights)` in
the weight dictionary's insertion order. -/
def overall_weighted (sqrtQ : ℚ → ℚ) (slides : String) (plan : List PlanItem)
    (script : List ScriptItem) : ℚ :=
  qadd (qmul (cc_overall slides plan script) weight_content)
    (qadd (qmul (structure_overall sqrtQ plan script) weight_structure)
    (qadd (qmul (language_overall script) weight_language)
    (qadd (qmul (detail_overall slides script) weight_detail)
          (qmul (time_overall plan) weight_time))))

/-- Embeds `SpeechEvaluator.evaluate_all`: the five dimension scorers, the
weighted overall score, and the grade. -/
def evaluate_all (sqrtQ : ℚ → ℚ) (slides : String) (plan : List PlanItem)
    (script : List ScriptItem) : EvalResult :=
  { content_consistency := evaluate_content_consistency slides plan script
    structure_dim := evaluate_structure_dim sqrtQ plan script
    language_quality := evaluate_language_quality script
    detail_richness := evaluate_detail_richness slides script
    time_management := evaluate_time_management plan
    overall_score := overall_weighted sqrtQ slides plan script
    grade := get_grade (overall_weighted sqrtQ slides plan script) }

/-! ### Auxiliary definitions used only in claim statements -/

/-- Rank of a grade string, `F < D < C < C+ < B < B+ < A < A+`, as used by
the spec's monotonicity property. -/
def gradeRank (g : String) : ℕ :=
  if g = "A+ (优秀)" then 7
  else if g = "A (优秀)" then 6
  else if g = "B+ (良好)" then 5
  else if g = "B (良好)" then 4
  else if g = "C+ (中等)" then 3
  else if g = "C (中等)" then 2
  else if g = "D (及格)" then 1
  else 0

/-- `0 ≤ x ≤ 1`, the range every sub-metric must stay in. -/
def unit01 (x : ℚ) : Prop := 0 ≤ x ∧ x ≤ 1

/-- Stated from the claim's wording for the transitions sub-metric: the
item's text up to the first sentence terminator (the terminator used by the
source's leading-clause computation is the period). -/
def leadingClause (text : String) : List Char :=
  text.data.takeWhile (fun c => c ≠ '.')

/-- Stated from the claim's wording: the leading clause contains some phrase
of the fixed transition list, case-insensitively. -/
def transitionHitSpec (text : String) : Bool :=
  transition_phrases.any (fun ph => containsSub ph.data ((leadingClause text).map lowerChar))

/-- Stated from the claim's wording: hits among all items except the first,
divided by `itemCount − 1`; `1` when the script has at most one item. -/
def transitionsSpec (script : List ScriptItem) : ℚ :=
  if script.length ≤ 1 then 1
  else qdiv ((script.tail.countP (fun s => transitionHitSpec s.text)) : ℚ)
            (qsub (script.length : ℚ) 1)

/-! ### The payload boundary: fence stripping and JSON parsing

`SpeechEvaluator.__init__` strips an optional Markdown fence, runs
`json.loads`, and reads `plan` / `script` with `.get(…, [])`. `json.loads`
is the Python standard library; it is modelled here by an executable JSON
parser for the standard grammar (objects, arrays, strings with escapes,
numbers, literals). -/

/-- A JSON value. -/
inductive Json where
  | null : Json
  | bool : Bool → Json
  | num : ℚ → Json
  | str : String → Json
  | arr : List Json → Json
  | obj : List (String × Json) → Json

/-- JSON insignificant whitespace. -/
def skipWS (cs : List Char) : List Char :=
  cs.dropWhile (fun c => c = ' ' || c = '\t' || c = '\n' || c = '\x0d')

/-- Value of a hexadecimal digit. -/
def hexVal (c : Char) : Option Nat :=
  if c.isDigit then some (c.toNat - 48)
  else if 'a' ≤ c && c ≤ 'f' then some (c.toNat - 87)
  else if 'A' ≤ c && c ≤ 'F' then some (c.toNat - 55)
  else none

/-- Parses the body of a JSON string after the opening quote; yields the
decoded characters and the input after the closing quote. -/
def parseJStringAux : Nat → List Char → Option (List Char × List Char)
  | 0, _ => none
  | fuel+1, cs =>
    match cs with
    | [] => none
    | '"' :: rest => some ([], rest)
    | '\\' :: e :: rest =>
      let cont : Char → List Char → Option (List Char × List Char) := fun c r =>
        match parseJStringAux fuel r with
        | some (s, r2) => some (c :: s, r2)
        | none => none
      (match e with
       | '"' => cont '"' rest
       | '\\' => cont '\\' rest
       | '/' => cont '/' rest
       | 'b' => cont '\x08' rest
       | 'f' => cont '\x0c' rest
       | 'n' => cont '\n' rest
       | 'r' => cont '\x0d' rest
       | 't' => cont '\t' rest
       | 'u' =>
         (match rest with
          | h1 :: h2 :: h3 :: h4 :: rest2 =>
            (match hexVal h1, hexVal h2, hexVal h3, hexVal h4 with
             | some a, some b, some c, some d =>
               let n := ((a * 16 + b) * 16 + c) * 16 + d
               if 0xd800 ≤ n ∧ n < 0xe000 then none
               else cont (Char.ofNat n) rest2
             | _, _, _, _ => none)
          | _ => none)
       | _ => none)
    | c :: rest =>
      if c.toNat < 0x20 then none
      else
        match parseJStringAux fuel rest with
        | some (s, r2) => some (c :: s, r2)
        | none => none

/-- Parses an optional fraction part `(\.\d+)?`. -/
def parseFracPart : List Char → Option (ℚ × List Char)
  | '.' :: t =>
    let fd := t.takeWhile Char.isDigit
    if fd.isEmpty then none
    else some (fracFromDigits fd, t.dropWhile Char.isDigit)
  | cs => some (0, cs)

/-- Parses an optional exponent part `([eE][+-]?\d+)?`. -/
def parseExpPart : List Char → Option (Int × List Char)
  | c :: t =>
    if c = 'e' || c = 'E' then
      let p : Int × List Char :=
        match t with
        | '+' :: t2 => (1, t2)
        | '-' :: t2 => (-1, t2)
        | _ => (1, t)
      let ed := p.2.takeWhile Char.isDigit
      if ed.isEmpty then none
      else some (p.1 * (natFromDigits ed : Int), p.2.dropWhile Char.isDigit)
    else some (0, c :: t)
  | [] => some (0, [])

/-- Scales a rational by a power of ten. -/
def applyExp (q : ℚ) : Int → ℚ
  | Int.ofNat n => qmul q ((10 ^ n : ℕ) : ℚ)
  | Int.negSucc n => qdiv q ((10 ^ (n+1) : ℕ) : ℚ)

/-- Parses a JSON number (`-? (0|[1-9]\d*) (\.\d+)? ([eE][+-]?\d+)?`). -/
def parseJNum (cs : List Char) : Option (ℚ × List Char) :=
  let p : Bool × List Char :=
    match cs with
    | '-' :: t => (true, t)
    | _ => (false, cs)
  let ip := p.2.takeWhile Char.isDigit
  if ip.isEmpty then none
  else if 1 < ip.length ∧ ip.headD '0' = '0' then none
  else
    match parseFracPart (p.2.dropWhile Char.isDigit) with
    | none => none
    | some (fr, r2) =>
      match parseExpPart r2 with
      | none => none
      | some (ex, r3) =>
        let v := applyExp (qadd (natFromDigits ip : ℚ) fr) ex
        some (if p.1 then qsub 0 v else v, r3)

mutual

/-- Parses one JSON value (fuelled; the fuel bounds the recursion depth and
`input length + 1` always suffices). -/
def parseJValue : Nat → List Char → Option (Json × List Char)
  | 0, _ => none
  | fuel+1, cs =>
    match skipWS cs with
    | '\x7b' :: rest =>
      (match skipWS rest with
       | '\x7d' :: r2 => some (Json.obj [], r2)
       | r2 =>
         match parseJMembers fuel r2 with
         | none => none
         | some (ms, r3) => some (Json.obj ms, r3))
    | '[' :: rest =>
      (match skipWS rest with
       | ']' :: r2 => some (Json.arr [], r2)
       | r2 =>
         match parseJElems fuel r2 with
         | none => none
         | some (vs, r3) => some (Json.arr vs, r3))
    | '"' :: rest =>
      (match parseJStringAux (rest.length + 1) rest with
       | none => none
       | some (s, r) => some (Json.str (String.mk s), r))
    | 't' :: 'r' :: 'u' :: 'e' :: r => some (Json.bool true, r)
    | 'f' :: 'a' :: 'l' :: 's' :: 'e' :: r => some (Json.bool false, r)
    | 'n' :: 'u' :: 'l' :: 'l' :: r => some (Json.null, r)
    | cs2 =>
      match parseJNum cs2 with
      | none => none
      | some (q, r) => some (Json.num q, r)

/-- Parses the members of a JSON object (at least one; positioned at a key). -/
def parseJMembers : Nat → List Char → Option (List (String × Json) × List Char)
  | 0, _ => none
  | fuel+1, cs =>
    match cs with
    | '"' :: rest =>
      (match parseJStringAux (rest.length + 1) rest with
       | none => none
       | some (key, r1) =>
         match skipWS r1 with
         | ':' :: r2 =>
           (match parseJValue fuel r2 with
            | none => none
            | some (v, r3) =>
              match skipWS r3 with
              | ',' :: r4 =>
                (match parseJMembers fuel (skipWS r4) with
                 | none => none
                 | some (ms, r5) => some ((String.mk key, v) :: ms, r5))
              | '\x7d' :: r4 => some ([(String.mk key, v)], r4)
              | _ => none)
         | _ => none)
    | _ => none

/-- Parses the elements of a JSON array (at least one). -/
def parseJElems : Nat → List Char → Option (List Json × List Char)
  | 0, _ => none
  | fuel+1, cs =>
    match parseJValue fuel cs with
    | none => none
    | some (v, r1) =>
      match skipWS r1 with
      | ',' :: r2 =>
        (match parseJElems fuel r2 with
         | none => none
         | some (vs, r3) => some (v :: vs, r3))
      | ']' :: r2 => some (v :: [], r2)
      | _ => none

end

/-- Models `json.loads`: parse one value, then require only whitespace to
remain. -/
def parseJson (s : String) : Option Json :=
  match parseJValue (s.data.length + 1) s.data with
  | none => none
  | some (j, rest) => if (skipWS rest).isEmpty then some j else none

/-- The fence-stripping of `SpeechEvaluator.__init__`: strip, drop a leading
"```json" (7 characters) or "```" (3), drop a trailing "```", strip again. -/
def stripFence (s : String) : String :=
  let cs := stripChars s.data
  let cs1 := if "```json".data.isPrefixOf cs then cs.drop 7 else cs
  let cs2 := if "```".data.isPrefixOf cs1 then cs1.drop 3 else cs1
  let cs3 := if "```".data.reverse.isPrefixOf cs2.reverse then cs2.take (cs2.length - 3) else cs2
  String.mk (stripChars cs3)

/-- The error classes of the constructor and of evaluation: a JSON decode
failure, `.get` on a non-dictionary, or a missing mandatory key. -/
inductive PyError where
  | parseError : PyError
  | attributeError : PyError
  | keyError : PyError
deriving DecidableEq

/-- `dict.get(key, default)` for a parsed JSON object, with Python's
last-duplicate-wins key semantics. -/
def jsonGetD (kvs : List (String × Json)) (key : String) (dflt : Json) : Json :=
  match (kvs.filter (fun kv => kv.1 == key)).getLast? with
  | some kv => kv.2
  | none => dflt

/-- Whether a JSON value is an object carrying the given key. -/
def jsonHasKey (j : Json) (key : String) : Bool :=
  match j with
  | Json.obj kvs => kvs.any (fun kv => kv.1 == key)
  | _ => false

/-- Embeds `SpeechEvaluator.__init__` after fence-stripping: `json.loads`
failure is a parse error; `.get` on a non-object raises `AttributeError`;
otherwise `plan` and `script` are read with default `[]`. -/
def initEvaluator (payload : String) : Except PyError (Json × Json) :=
  match parseJson (stripFence payload) with
  | none => Except.error PyError.parseError
  | some j =>
    match j with
    | Json.obj kvs =>
      Except.ok (jsonGetD kvs "plan" (Json.arr []), jsonGetD kvs "script" (Json.arr []))
    | _ => Except.error PyError.attributeError

/-! ### The dynamic-access layer

Plan and script items as JSON objects with possibly missing keys. Running
the evaluator subscripts `['text']` on every script item (first in
`evaluate_content_consistency`) and `['slide']` on every plan and script
item (in `_evaluate_coherence`), so any such missing key raises `KeyError`;
`title` and `duration` are only read through `.get` with defaults. The
order in which Python reaches the individual accesses differs, but every
missing mandatory key produces the same `KeyError` outcome. -/

/-- A plan item as a JSON object: any key may be absent. -/
structure PlanItemD where
  slide : Option Int
  title : Option String
  duration : Option String

/-- A script item as a JSON object: any key may be absent. -/
structure ScriptItemD where
  slide : Option Int
  text : Option String

/-- `item[key]`: a missing key raises `KeyError`. -/
def keyGet {α : Type} : Option α → Except PyError α
  | some v => Except.ok v
  | none => Except.error PyError.keyError

/-- Error-propagating map (the loops over plan/script items). -/
def mapExcept {α β : Type} (f : α → Except PyError β) : List α → Except PyError (List β)
  | [] => Except.ok []
  | x :: xs =>
    match f x with
    | Except.error e => Except.error e
    | Except.ok y =>
      match mapExcept f xs with
      | Except.error e => Except.error e
      | Except.ok ys => Except.ok (y :: ys)

/-- The mandatory accesses on one script item: `s['text']` and `s['slide']`. -/
def toScriptItem (s : ScriptItemD) : Except PyError ScriptItem :=
  match keyGet s.text with
  | Except.error e => Except.error e
  | Except.ok t =>
    match keyGet s.slide with
    | Except.error e => Except.error e
    | Except.ok sl => Except.ok { slide := sl, text := t }

/-- The mandatory access on one plan item: `p['slide']`; `title` and
`duration` stay optional and are defaulted at their use sites. -/
def toPlanItem (p : PlanItemD) : Except PyError PlanItem :=
  match keyGet p.slide with
  | Except.error e => Except.error e
  | Except.ok sl => Except.ok { slide := sl, title := p.title, duration := p.duration }

/-- Evaluation over items with possibly missing keys: performs the mandatory
subscripts and, when they all succeed, the pure evaluation. -/
def evalAllDyn (sqrtQ : ℚ → ℚ) (slides : String) (plan : List PlanItemD)
    (script : List ScriptItemD) : Except PyError EvalResult :=
  match mapExcept toScriptItem script with
  | Except.error e => Except.error e
  | Except.ok scriptT =>
    match mapExcept toPlanItem plan with
    | Except.error e => Except.error e
    | Except.ok planT => Except.ok (evaluate_all sqrtQ slides planT scriptT)

end Speech

namespace Speech

/-! ### Bridges between the kernel-computable arithmetic and `+ - * /` -/

/-- `qdiv` is division. -/
theorem qdiv_eq (a b : ℚ) : qdiv a b = a / b := by
  rw [qdiv, Rat.divInt_eq_div]
  rcases eq_or_ne b 0 with rfl | hb
  · simp
  · have hbn : (b.num : ℚ) ≠ 0 := by exact_mod_cast Rat.num_ne_zero.mpr hb
    have had : (a.den : ℚ) ≠ 0 := by exact_mod_cast a.den_nz
    have hbd : (b.den : ℚ) ≠ 0 := by exact_mod_cast b.den_nz
    conv_rhs => rw [← Rat.num_div_den a, ← Rat.num_div_den b]
    push_cast
    try field_simp
    try ring

/-- `qmul` is multiplication. -/
theorem qmul_eq (a b : ℚ) : qmul a b = a * b := by
  rw [qmul, Rat.divInt_eq_div]
  have had : (a.den : ℚ) ≠ 0 := by exact_mod_cast a.den_nz
  have hbd : (b.den : ℚ) ≠ 0 := by exact_mod_cast b.den_nz
  conv_rhs => rw [← Rat.num_div_den a, ← Rat.num_div_den b]
  push_cast
  try field_simp
  try ring

/-- `qadd` is addition. -/
theorem qadd_eq (a b : ℚ) : qadd a b = a + b := by
  rw [qadd, Rat.divInt_eq_div]
  have had : (a.den : ℚ) ≠ 0 := by exact_mod_cast a.den_nz
  have hbd : (b.den : ℚ) ≠ 0 := by exact_mod_cast b.den_nz
  conv_rhs => rw [← Rat.num_div_den a, ← Rat.num_div_den b]
  push_cast
  try field_simp
  try ring

/-- `qsub` is subtraction. -/
theorem qsub_eq (a b : ℚ) : qsub a b = a - b := by
  rw [qsub, Rat.divInt_eq_div]
  have had : (a.den : ℚ) ≠ 0 := by exact_mod_cast a.den_nz
  have hbd : (b.den : ℚ) ≠ 0 := by exact_mod_cast b.den_nz
  conv_rhs => rw [← Rat.num_div_den a, ← Rat.num_div_den b]
  push_cast
  try field_simp
  try ring

/-- `qsum` is the list sum. -/
theorem qsum_eq (l : List ℚ) : qsum l = l.sum := by
  induction l with
  | nil => rfl
  | cons a t ih => simp [qsum, List.foldr_cons, qadd_eq] at ih ⊢; rw [ih]

/-! ### Generic range facts -/

/-- Booleans embed into `[0,1]`. -/
theorem unit01_b2q (b : Bool) : unit01 (b2q b) := by
  cases b <;> simp [b2q, unit01]

/-- A ratio of naturals `a / b` with `a ≤ b`, `0 < b` lies in `[0,1]`. -/
theorem unit01_natdiv {a b : ℕ} (hab : a ≤ b) (hb : 0 < b) :
    unit01 (qdiv (a : ℚ) (b : ℚ)) := by
  rw [unit01, qdiv_eq]
  constructor
  · positivity
  · rw [div_le_one (by exact_mod_cast hb)]
    exact_mod_cast hab

/-- The mean of three values in `[0,1]` is in `[0,1]`. -/
theorem unit01_mean3 {a b c : ℚ} (ha : unit01 a) (hb : unit01 b) (hc : unit01 c) :
    unit01 (qdiv (qadd a (qadd b c)) 3) := by
  obtain ⟨ha0, ha1⟩ := ha
  obtain ⟨hb0, hb1⟩ := hb
  obtain ⟨hc0, hc1⟩ := hc
  rw [unit01, qdiv_eq, qadd_eq, qadd_eq]
  constructor
  · positivity
  · rw [div_le_one (by norm_num)]
    linarith

/-- The mean of four values in `[0,1]` is in `[0,1]`. -/
theorem unit01_mean4 {a b c d : ℚ} (ha : unit01 a) (hb : unit01 b) (hc : unit01 c)
    (hd : unit01 d) : unit01 (qdiv (qadd a (qadd b (qadd c d))) 4) := by
  obtain ⟨ha0, ha1⟩ := ha
  obtain ⟨hb0, hb1⟩ := hb
  obtain ⟨hc0, hc1⟩ := hc
  obtain ⟨hd0, hd1⟩ := hd
  rw [unit01, qdiv_eq, qadd_eq, qadd_eq, qadd_eq]
  constructor
  · positivity
  · rw [div_le_one (by norm_num)]
    linarith

/-- The mean of five values in `[0,1]` is in `[0,1]`. -/
theorem unit01_mean5 {a b c d e : ℚ} (ha : unit01 a) (hb : unit01 b) (hc : unit01 c)
    (hd : unit01 d) (he : unit01 e) :
    unit01 (qdiv (qadd a (qadd b (qadd c (qadd d e)))) 5) := by
  obtain ⟨ha0, ha1⟩ := ha
  obtain ⟨hb0, hb1⟩ := hb
  obtain ⟨hc0, hc1⟩ := hc
  obtain ⟨hd0, hd1⟩ := hd
  obtain ⟨he0, he1⟩ := he
  rw [unit01, qdiv_eq, qadd_eq, qadd_eq, qadd_eq, qadd_eq]
  constructor
  · positivity
  · rw [div_le_one (by norm_num)]
    linarith

/-- A nonempty list is not `isEmpty`. -/
theorem length_pos_of_not_isEmpty {α} {l : List α} (h : l.isEmpty = false) :
    0 < l.length := by
  cases l with
  | nil => simp at h
  | cons a t => simp

/-- `qsum` of nonnegative entries is nonnegative. -/
theorem qsum_nonneg {l : List ℚ} (h : ∀ x ∈ l, 0 ≤ x) : 0 ≤ qsum l := by
  rw [qsum_eq]
  exact List.sum_nonneg h

/-! ### Range of each content-consistency sub-metric -/

/-- Coverage ratios lie in `[0,1]`. -/
theorem calculate_coverage_unit (s t : List String) : unit01 (calculate_coverage s t) := by
  unfold calculate_coverage
  split
  · exact ⟨zero_le_one, le_refl 1⟩
  · next h =>
    exact unit01_natdiv (List.length_filter_le _ _)
      (length_pos_of_not_isEmpty (by simpa using h))

/-- Title coverage lies in `[0,1]`. -/
theorem title_coverage_unit (plan : List PlanItem) (script : List ScriptItem) :
    unit01 (check_slide_title_coverage plan script) := by
  unfold check_slide_title_coverage
  dsimp only
  split
  · exact ⟨zero_le_one, le_refl 1⟩
  · next h =>
    exact unit01_natdiv (List.countP_le_length _)
      (length_pos_of_not_isEmpty (by simpa using h))

/-- Fact accuracy lies in `[0,1]`. -/
theorem fact_accuracy_unit (slides : String) (script : List ScriptItem) :
    unit01 (check_fact_consistency slides script) := by
  unfold check_fact_consistency
  dsimp only
  split
  · exact ⟨zero_le_one, le_refl 1⟩
  · next h =>
    exact unit01_natdiv (Nat.add_le_add (List.countP_le_length _) (List.countP_le_length _))
      (Nat.pos_of_ne_zero h)

/-- The hallucination remap is the identity on the new-keyword ratio: both
linear pieces simplify to the ratio itself. -/
theorem hallucination_eq (s t : List String) : detect_hallucination_risk s t =
    if t.dedup.isEmpty then 0
    else qdiv ((t.dedup.filter (fun k => !(s.dedup.contains k))).length : ℚ)
              (t.dedup.length : ℚ) := by
  unfold detect_hallucination_risk
  dsimp only
  split
  · rfl
  · split
    · rw [qmul_eq, qdiv_eq (qdiv _ _), qdiv_eq (3 : ℚ)]
      rw [div_mul_cancel₀ _ (by norm_num : (3 : ℚ) / 10 ≠ 0)]
    · rw [qadd_eq, qmul_eq, qdiv_eq (qsub _ _), qdiv_eq (3 : ℚ), qdiv_eq (7 : ℚ), qsub_eq]
      rw [div_mul_cancel₀ _ (by norm_num : (7 : ℚ) / 10 ≠ 0)]
      ring

/-- Hallucination risk lies in `[0,1]`. -/
theorem hallucination_unit (s t : List String) : unit01 (detect_hallucination_risk s t) := by
  rw [hallucination_eq]
  split
  · exact ⟨le_refl 0, zero_le_one⟩
  · next h =>
    exact unit01_natdiv (List.length_filter_le _ _)
      (length_pos_of_not_isEmpty (by simpa using h))

/-- `1 − risk` lies in `[0,1]` when `risk` does. -/
theorem unit01_one_sub {x : ℚ} (h : unit01 x) : unit01 (qsub 1 x) := by
  obtain ⟨h0, h1⟩ := h
  rw [unit01, qsub_eq]
  constructor <;> linarith

/-- Keyword coverage lies in `[0,1]`. -/
theorem cc_keyword_coverage_unit (slides : String) (script : List ScriptItem) :
    unit01 (cc_keyword_coverage slides script) := by
  unfold cc_keyword_coverage
  exact calculate_coverage_unit _ _

/-- Concept coverage lies in `[0,1]`. -/
theorem cc_concept_coverage_unit (slides : String) (script : List ScriptItem) :
    unit01 (cc_concept_coverage slides script) := by
  unfold cc_concept_coverage
  exact calculate_coverage_unit _ _

/-- The hallucination-risk entry lies in `[0,1]`. -/
theorem cc_hallucination_unit (slides : String) (script : List ScriptItem) :
    unit01 (cc_hallucination slides script) := by
  unfold cc_hallucination
  exact hallucination_unit _ _

/-- The content-consistency overall score lies in `[0,1]`. -/
theorem cc_overall_unit (slides : String) (plan : List PlanItem) (script : List ScriptItem) :
    unit01 (cc_overall slides plan script) := by
  unfold cc_overall
  exact unit01_mean5 (cc_keyword_coverage_unit _ _) (cc_concept_coverage_unit _ _)
    (title_coverage_unit _ _) (fact_accuracy_unit _ _)
    (unit01_one_sub (cc_hallucination_unit _ _))

/-! ### Range of each structure sub-metric -/

/-- Coherence lies in `[0,1]`. -/
theorem coherence_unit (plan : List PlanItem) (script : List ScriptItem) :
    unit01 (evaluate_coherence plan script) := by
  unfold evaluate_coherence
  dsimp only
  apply unit01_mean3 (unit01_b2q _) (unit01_b2q _)
  split
  · exact ⟨zero_le_one, le_refl 1⟩
  · next h =>
    exact unit01_natdiv (List.length_filter_le _ _)
      (length_pos_of_not_isEmpty (by simpa using h))

/-- Time balance lies in `[0,1]`, whatever function models `math.sqrt`. -/
theorem time_balance_unit (sqrtQ : ℚ → ℚ) (plan : List PlanItem) :
    unit01 (evaluate_time_balance sqrtQ plan) := by
  unfold evaluate_time_balance
  dsimp only
  split
  · exact ⟨zero_le_one, le_refl 1⟩
  · split
    · exact ⟨le_refl 0, zero_le_one⟩
    · exact ⟨le_min (le_max_left 0 _) zero_le_one, min_le_right _ _⟩

/-- Transitions lie in `[0,1]`. -/
theorem transitions_unit (script : List ScriptItem) :
    unit01 (evaluate_transitions script) := by
  unfold evaluate_transitions
  dsimp only
  split
  · next h =>
    have hlen : 2 ≤ script.length := by omega
    have hcount : ((script.drop 1).filter (fun s => transitionHit s.text)).length ≤
        script.length - 1 := by
      calc ((script.drop 1).filter (fun s => transitionHit s.text)).length
          ≤ (script.drop 1).length := List.length_filter_le _ _
        _ = script.length - 1 := by simp
    rw [unit01, qdiv_eq]
    have hd : (0 : ℚ) < (((script.length : Int) - 1 : ℤ) : ℚ) := by
      push_cast
      have : (2 : ℚ) ≤ (script.length : ℚ) := by exact_mod_cast hlen
      linarith
    constructor
    · positivity
    · rw [div_le_one hd]
      push_cast
      have h1 : (((script.drop 1).filter (fun s => transitionHit s.text)).length : ℚ) ≤
          ((script.length - 1 : ℕ) : ℚ) := by exact_mod_cast hcount
      rw [Nat.cast_sub (by omega)] at h1
      push_cast at h1
      linarith
  · exact ⟨zero_le_one, le_refl 1⟩

/-- Organization lies in `[0,1]`. -/
theorem organization_unit (plan : List PlanItem) :
    unit01 (evaluate_organization plan) := by
  unfold evaluate_organization
  dsimp only
  exact unit01_mean3 (unit01_b2q _) (unit01_b2q _) (unit01_b2q _)

/-- The structure overall score lies in `[0,1]`. -/
theorem structure_overall_unit (sqrtQ : ℚ → ℚ) (plan : List PlanItem)
    (script : List ScriptItem) : unit01 (structure_overall sqrtQ plan script) := by
  unfold structure_overall
  exact unit01_mean4 (coherence_unit _ _) (time_balance_unit _ _)
    (transitions_unit _) (organization_unit _)

/-! ### Range of each language-quality sub-metric -/

/-- A quotient of a sum of natural-number casts by a positive count is
nonnegative. -/
theorem qdiv_cast_sum_nonneg (l : List ℚ) (h : ∀ x ∈ l, 0 ≤ x) (n : ℕ) :
    0 ≤ qdiv (qsum l) (n : ℚ) := by
  rw [qdiv_eq]
  exact div_nonneg (qsum_nonneg h) (by positivity)

/-- Generic range fact for the clarity band curve. -/
theorem unit01_clarity_band (avg : ℚ) (h0 : 0 ≤ avg) :
    unit01 (if 12 ≤ avg ∧ avg ≤ 25 then 1
      else if avg < 12 then qadd (qdiv 7 10) (qmul (qdiv avg 12) (qdiv 3 10))
      else max (qdiv 3 10) (qsub 1 (qdiv (qsub avg 25) 25))) := by
  split
  · exact ⟨zero_le_one, le_refl 1⟩
  · split
    · next hband hlt =>
      rw [unit01, qadd_eq, qmul_eq, qdiv_eq avg, qdiv_eq (7 : ℚ), qdiv_eq (3 : ℚ)]
      constructor
      · have h1 : (0:ℚ) ≤ avg / 12 * (3 / 10) := by positivity
        linarith
      · have h1 : avg / 12 < 1 := by
          rw [div_lt_one (by norm_num)]
          exact hlt
        nlinarith
    · next hband hge =>
      push_neg at hband hge
      have h25 : 25 < avg := hband hge
      rw [unit01, qsub_eq, qdiv_eq (qsub _ _), qsub_eq, qdiv_eq (3 : ℚ)]
      constructor
      · exact le_trans (by norm_num) (le_max_left _ _)
      · apply max_le
        · norm_num
        · have h1 : 0 < (avg - 25) / 25 := div_pos (by linarith) (by norm_num)
          linarith

/-- Generic range fact for the conversational band curve. -/
theorem unit01_conversational_band (r : ℚ) (h0 : 0 ≤ r) :
    unit01 (if 2 ≤ r ∧ r ≤ 6 then 1
      else if r < 2 then qdiv r 2
      else max (qdiv 1 2) (qsub 1 (qdiv (qsub r 6) 10))) := by
  split
  · exact ⟨zero_le_one, le_refl 1⟩
  · split
    · next hband hlt =>
      rw [unit01, qdiv_eq]
      constructor
      · positivity
      · rw [div_le_one (by norm_num)]
        linarith
    · next hband hge =>
      push_neg at hband hge
      have h6 : 6 < r := hband hge
      rw [unit01, qsub_eq, qdiv_eq (qsub _ _), qsub_eq, qdiv_eq (1 : ℚ)]
      constructor
      · exact le_trans (by norm_num) (le_max_left _ _)
      · apply max_le
        · norm_num
        · have h1 : 0 < (r - 6) / 10 := div_pos (by linarith) (by norm_num)
          linarith

/-- Generic range fact for the vocabulary band curve. -/
theorem unit01_vocabulary_band (t : ℚ) (h0 : 0 ≤ t) :
    unit01 (if qdiv 35 100 ≤ t ∧ t ≤ qdiv 65 100 then 1
      else if t < qdiv 35 100 then qdiv t (qdiv 35 100)
      else max (qdiv 6 10) (qsub 1 (qdiv (qsub t (qdiv 65 100)) (qdiv 35 100)))) := by
  rw [qdiv_eq (35 : ℚ), qdiv_eq (65 : ℚ), qdiv_eq (6 : ℚ)]
  split
  · exact ⟨zero_le_one, le_refl 1⟩
  · split
    · next hband hlt =>
      rw [unit01, qdiv_eq]
      constructor
      · positivity
      · rw [div_le_one (by norm_num)]
        linarith
    · next hband hge =>
      push_neg at hband hge
      have h65 : 65 / 100 < t := hband hge
      rw [unit01, qsub_eq, qdiv_eq (qsub _ _), qsub_eq]
      constructor
      · exact le_trans (by norm_num) (le_max_left _ _)
      · apply max_le
        · norm_num
        · have h1 : 0 < (t - 65 / 100) / (35 / 100) := div_pos (by linarith) (by norm_num)
          linarith

/-- Generic range fact for the expansion-ratio band curve. -/
theorem unit01_expansion_band (r : ℚ) (h0 : 0 ≤ r) :
    unit01 (if qdiv 3 2 ≤ r ∧ r ≤ 3 then 1
      else if r < qdiv 3 2 then qdiv r (qdiv 3 2)
      else max (qdiv 1 2) (qsub 1 (qdiv (qsub r 3) 3))) := by
  rw [qdiv_eq (3 : ℚ) (2 : ℚ), qdiv_eq (1 : ℚ)]
  split
  · exact ⟨zero_le_one, le_refl 1⟩
  · split
    · next hband hlt =>
      rw [unit01, qdiv_eq]
      constructor
      · positivity
      · rw [div_le_one (by norm_num)]
        linarith
    · next hband hge =>
      push_neg at hband hge
      have h3 : 3 < r := hband hge
      rw [unit01, qsub_eq, qdiv_eq (qsub _ _), qsub_eq]
      constructor
      · exact le_trans (by norm_num) (le_max_left _ _)
      · apply max_le
        · norm_num
        · have h1 : 0 < (r - 3) / 3 := div_pos (by linarith) (by norm_num)
          linarith

/-- Clarity lies in `[0,1]`. -/
theorem clarity_unit (script : List ScriptItem) : unit01 (evaluate_clarity script) := by
  unfold evaluate_clarity
  dsimp only
  split
  · exact ⟨le_refl 0, zero_le_one⟩
  · apply unit01_clarity_band
    apply qdiv_cast_sum_nonneg
    intro x hx
    obtain ⟨p, _, rfl⟩ := List.mem_map.mp hx
    positivity

/-- Conversational style lies in `[0,1]`. -/
theorem conversational_unit (script : List ScriptItem) :
    unit01 (evaluate_conversational_style script) := by
  unfold evaluate_conversational_style
  dsimp only
  apply unit01_conversational_band
  split
  · exact le_refl 0
  · rw [qmul_eq, qdiv_eq]
    positivity

/-- Vocabulary richness lies in `[0,1]`. -/
theorem vocabulary_unit (script : List ScriptItem) :
    unit01 (evaluate_vocabulary script) := by
  unfold evaluate_vocabulary
  dsimp only
  split
  · exact ⟨le_refl 0, zero_le_one⟩
  · next hne =>
    apply unit01_vocabulary_band
    exact (unit01_natdiv (List.Sublist.length_le (List.dedup_sublist _))
      (length_pos_of_not_isEmpty (by simpa using hne))).1

/-- Professionalism lies in `[0,1]`. -/
theorem professionalism_unit (script : List ScriptItem) :
    unit01 (evaluate_professionalism script) := by
  unfold evaluate_professionalism
  dsimp only
  constructor
  · apply le_min _ zero_le_one
    rw [qdiv_eq, qdiv_eq]
    positivity
  · exact min_le_right _ _

/-- The language overall score lies in `[0,1]`. -/
theorem language_overall_unit (script : List ScriptItem) :
    unit01 (language_overall script) := by
  unfold language_overall
  exact unit01_mean4 (clarity_unit _) (conversational_unit _)
    (vocabulary_unit _) (professionalism_unit _)

/-! ### Range of each detail-richness sub-metric -/

/-- Expansion ratio lies in `[0,1]`. -/
theorem expansion_unit (slides : String) (script : List ScriptItem) :
    unit01 (calculate_expansion_ratio slides script) := by
  unfold calculate_expansion_ratio
  dsimp only
  split
  · exact ⟨le_refl 0, zero_le_one⟩
  · apply unit01_expansion_band
    rw [qdiv_eq]
    positivity

/-- A capped count ratio `min (count / max(ideal,1)) 1` lies in `[0,1]`
when the count is nonnegative. -/
theorem unit01_capped_ratio {cnt ideal : ℚ} (hc : 0 ≤ cnt) :
    unit01 (min (qdiv cnt (max ideal 1)) 1) := by
  constructor
  · apply le_min _ zero_le_one
    rw [qdiv_eq]
    apply div_nonneg hc
    exact le_trans zero_le_one (le_max_right _ _)
  · exact min_le_right _ _

/-- A `qsum` over casts of `countSub` values is nonnegative. -/
theorem qsum_counts_nonneg (inds : List String) (text : List Char) :
    0 ≤ qsum (inds.map (fun ind => ((countSub ind.data text : ℕ) : ℚ))) := by
  apply qsum_nonneg
  intro x hx
  obtain ⟨i, _, rfl⟩ := List.mem_map.mp hx
  positivity

/-- Example usage lies in `[0,1]`. -/
theorem example_usage_unit (script : List ScriptItem) :
    unit01 (check_example_usage script) := by
  unfold check_example_usage
  dsimp only
  exact unit01_capped_ratio (qsum_counts_nonneg _ _)

/-- Explanation quality lies in `[0,1]`. -/
theorem explanations_unit (script : List ScriptItem) :
    unit01 (evaluate_explanations script) := by
  unfold evaluate_explanations
  dsimp only
  exact unit01_capped_ratio (qsum_counts_nonneg _ _)

/-- Context provision lies in `[0,1]`. -/
theorem context_unit (script : List ScriptItem) : unit01 (evaluate_context script) := by
  unfold evaluate_context
  dsimp only
  constructor
  · apply le_min _ zero_le_one
    rw [qdiv_eq]
    positivity
  · exact min_le_right _ _

/-- The detail overall score lies in `[0,1]`. -/
theorem detail_overall_unit (slides : String) (script : List ScriptItem) :
    unit01 (detail_overall slides script) := by
  unfold detail_overall
  exact unit01_mean4 (expansion_unit _ _) (example_usage_unit _)
    (explanations_unit _) (context_unit _)

/-! ### Range of each time-management sub-metric -/

/-- A successfully extracted number is nonnegative. -/
theorem extractNumber_nonneg {cs : List Char} {n : ℚ} (h : extractNumber cs = some n) :
    0 ≤ n := by
  unfold extractNumber at h
  split at h
  · exact absurd h (by simp)
  · dsimp only at h
    split at h
    · rw [Option.some.injEq] at h
      subst h
      rw [qadd_eq]
      unfold fracFromDigits
      rw [qdiv_eq]
      positivity
    · rw [Option.some.injEq] at h
      subst h
      positivity

/-- A parsed duration is nonnegative. -/
theorem parse_duration_nonneg (s : String) : 0 ≤ parse_duration s := by
  unfold parse_duration
  split
  · exact le_refl 0
  · dsimp only
    split
    · exact le_refl 0
    · next n heq =>
      have hn : 0 ≤ n := extractNumber_nonneg heq
      split
      · rw [qdiv_eq]
        exact div_nonneg hn (by norm_num)
      · split
        · rw [qmul_eq]
          exact mul_nonneg hn (by norm_num)
        · exact hn

/-- The total planned time is nonnegative. -/
theorem total_time_nonneg (plan : List PlanItem) : 0 ≤ calculate_total_time plan := by
  unfold calculate_total_time
  apply qsum_nonneg
  intro x hx
  obtain ⟨p, _, rfl⟩ := List.mem_map.mp hx
  exact parse_duration_nonneg _

/-- On the empty plan the total planned time is zero. -/
theorem total_time_nil : calculate_total_time [] = 0 := rfl

/-- Duration appropriateness (at the total computed from the plan) lies in
`[0,1]`. -/
theorem tm_duration_appropriateness_unit (plan : List PlanItem) :
    unit01 (tm_duration_appropriateness plan) := by
  unfold tm_duration_appropriateness evaluate_duration_appropriateness
  dsimp only
  have htot : 0 ≤ calculate_total_time plan := total_time_nonneg plan
  simp only [qmul_eq, qdiv_eq, qsub_eq, qadd_eq]
  split
  · exact ⟨zero_le_one, le_refl 1⟩
  · next h1 =>
    split
    · next h2 =>
      have hn : 0 < plan.length := by
        rcases Nat.eq_zero_or_pos plan.length with h0 | h0
        · rw [h0] at h2
          push_cast at h2
          linarith
        · exact h0
      have hnq : (0:ℚ) < (plan.length : ℚ) * 1 := by
        have : (0:ℚ) < (plan.length : ℚ) := by exact_mod_cast hn
        linarith
      rw [unit01]
      constructor
      · exact div_nonneg htot (le_of_lt hnq)
      · rw [div_le_one hnq]
        linarith
    · next h2 =>
      push_neg at h1 h2
      have hgt : (plan.length : ℚ) * (5 / 2) < calculate_total_time plan := h1 h2
      have hn : 0 < plan.length := by
        rcases Nat.eq_zero_or_pos plan.length with h0 | h0
        · exfalso
          have hplan : plan = [] := List.length_eq_zero.mp h0
          rw [hplan, total_time_nil] at hgt
          norm_num at hgt
        · exact h0
      have hmax : (0:ℚ) < (plan.length : ℚ) * (5 / 2) := by
        have : (0:ℚ) < (plan.length : ℚ) := by exact_mod_cast hn
        positivity
      rw [unit01]
      constructor
      · exact le_trans (by norm_num) (le_max_left _ _)
      · apply max_le
        · norm_num
        · have hpos : 0 < (calculate_total_time plan - (plan.length : ℚ) * (5 / 2)) /
              ((plan.length : ℚ) * (5 / 2)) := div_pos (by linarith) hmax
          linarith

/-- Time distribution lies in `[0,1]`. -/
theorem time_distribution_unit (plan : List PlanItem) :
    unit01 (evaluate_time_distribution plan) := by
  unfold evaluate_time_distribution
  dsimp only
  split
  · exact ⟨zero_le_one, le_refl 1⟩
  · exact unit01_mean3 (unit01_b2q _) (unit01_b2q _) (unit01_b2q _)

/-- `1 − a/b` with natural `a`, `b` is at most 1. -/
theorem one_sub_natdiv_le_one (a b : ℕ) : qsub 1 (qdiv (a : ℚ) (b : ℚ)) ≤ 1 := by
  rw [qsub_eq, qdiv_eq]
  have : (0:ℚ) ≤ (a : ℚ) / (b : ℚ) := by positivity
  linarith

/-- Pace consistency lies in `[0,1]`. -/
theorem pace_unit (plan : List PlanItem) : unit01 (evaluate_pace plan) := by
  unfold evaluate_pace
  dsimp only
  split
  · exact ⟨zero_le_one, le_refl 1⟩
  · constructor
    · exact le_max_left 0 _
    · exact max_le zero_le_one (one_sub_natdiv_le_one _ _)

/-- The time-management overall score lies in `[0,1]`. -/
theorem time_overall_unit (plan : List PlanItem) : unit01 (time_overall plan) := by
  unfold time_overall
  exact unit01_mean3 (tm_duration_appropriateness_unit _)
    (time_distribution_unit _) (pace_unit _)

/-- The weighted overall score lies in `[0,1]`. -/
theorem overall_weighted_unit (sqrtQ : ℚ → ℚ) (slides : String) (plan : List PlanItem)
    (script : List ScriptItem) : unit01 (overall_weighted sqrtQ slides plan script) := by
  unfold overall_weighted
  obtain ⟨h10, h11⟩ := cc_overall_unit slides plan script
  obtain ⟨h20, h21⟩ := structure_overall_unit sqrtQ plan script
  obtain ⟨h30, h31⟩ := language_overall_unit script
  obtain ⟨h40, h41⟩ := detail_overall_unit slides script
  obtain ⟨h50, h51⟩ := time_overall_unit plan
  unfold weight_content weight_structure weight_language weight_detail weight_time
  simp only [qadd_eq, qmul_eq, qdiv_eq]
  rw [unit01]
  have a1 := mul_nonneg h10 (by norm_num : (0:ℚ) ≤ 30 / 100)
  have a2 := mul_nonneg h20 (by norm_num : (0:ℚ) ≤ 25 / 100)
  have a3 := mul_nonneg h30 (by norm_num : (0:ℚ) ≤ 20 / 100)
  have a4 := mul_nonneg h40 (by norm_num : (0:ℚ) ≤ 15 / 100)
  have a5 := mul_nonneg h50 (by norm_num : (0:ℚ) ≤ 10 / 100)
  constructor
  · linarith
  · linarith

/-! ### Case analysis on the lower-casing map -/

/-- Only the period lower-cases to a period. -/
theorem lowerChar_dot {c : Char} (h : lowerChar c = '.') : c = '.' := by
  unfold lowerChar at h
  split at h <;> first | exact h | exact absurd h (by decide)

/-- `lowerChar` maps every character to itself or to a lowercase letter. -/
theorem lowerChar_mem (c : Char) : lowerChar c = c ∨ lowerChar c ∈
    (['a','b','c','d','e','f','g','h','i','j','k','l','m',
      'n','o','p','q','r','s','t','u','v','w','x','y','z'] : List Char) := by
  unfold lowerChar
  split <;> first | exact Or.inl rfl | exact Or.inr (by decide)

/-- Lower-casing is idempotent. -/
theorem lowerChar_idem (c : Char) : lowerChar (lowerChar c) = lowerChar c := by
  rcases lowerChar_mem c with h | h
  · rw [h, h]
  · simp only [List.mem_cons, List.not_mem_nil, or_false] at h
    rcases h with h|h|h|h|h|h|h|h|h|h|h|h|h|h|h|h|h|h|h|h|h|h|h|h|h|h <;> rw [h] <;> decide

/-- Lower-casing twice is lower-casing once. -/
theorem map_lowerChar_idem (l : List Char) :
    (l.map lowerChar).map lowerChar = l.map lowerChar := by
  induction l with
  | nil => rfl
  | cons c t ih => simp only [List.map_cons, lowerChar_idem, ih]

/-! ### The leading clause of a script item (claim C4 support) -/

/-- `str.split` never returns an empty list of pieces. -/
theorem splitOnChar_ne_nil (sep : Char) (l : List Char) : splitOnChar sep l ≠ [] := by
  cases l with
  | nil => simp [splitOnChar]
  | cons c t =>
    unfold splitOnChar
    dsimp only
    split
    · simp
    · split
      · simp
      · simp

/-- The first piece of `str.split(sep)` is the longest separator-free prefix. -/
theorem splitOnChar_headD (sep : Char) (l : List Char) :
    (splitOnChar sep l).headD [] = l.takeWhile (fun c => c ≠ sep) := by
  induction l with
  | nil => rfl
  | cons c t ih =>
    unfold splitOnChar
    dsimp only
    by_cases hc : c = sep
    · rw [if_pos hc]
      simp [List.takeWhile_cons, hc]
    · rw [if_neg hc]
      rcases hr : splitOnChar sep t with _ | ⟨h, rest⟩
      · exact absurd hr (splitOnChar_ne_nil sep t)
      · rw [hr] at ih
        simp only [List.headD_cons] at ih
        simp only [ne_eq, decide_not] at ih
        simp [List.takeWhile_cons, hc, ← ih]

/-- `takeWhile (≠ '.')` commutes with lower-casing. -/
theorem takeWhile_dot_map (l : List Char) :
    (l.map lowerChar).takeWhile (fun c => c ≠ '.') =
      (l.takeWhile (fun c => c ≠ '.')).map lowerChar := by
  induction l with
  | nil => rfl
  | cons c t ih =>
    by_cases hc : c = '.'
    · subst hc
      simp [List.takeWhile_cons, show lowerChar '.' = '.' from rfl]
    · have hlc : lowerChar c ≠ '.' := fun h => hc (lowerChar_dot h)
      simp only [ne_eq, decide_not] at ih
      simp [List.takeWhile_cons, hc, hlc, ih]

/-- A list whose lower-casing has no period has no period. -/
theorem no_dot_of_map {l : List Char} (h : (l.map lowerChar).contains '.' = false) :
    l.takeWhile (fun c => c ≠ '.') = l := by
  induction l with
  | nil => rfl
  | cons c t ih =>
    simp only [List.map_cons, List.contains_cons, Bool.or_eq_false_iff] at h
    obtain ⟨h1, h2⟩ := h
    have hc : c ≠ '.' := by
      intro hcc
      subst hcc
      simp [show lowerChar '.' = '.' from rfl] at h1
    rw [List.takeWhile_cons, if_pos (by simp [hc]), ih h2]

/-- The per-item transition test of the source agrees with the claim's
formulation (leading clause up to the first period, case-insensitive
phrase containment). -/
theorem transitionHit_eq_spec (text : String) : transitionHit text = transitionHitSpec text := by
  unfold transitionHit transitionHitSpec leadingClause
  dsimp only
  have hkey : (if (text.data.map lowerChar).contains '.'
      then (splitOnChar '.' (text.data.map lowerChar)).headD [] else text.data.map lowerChar).map lowerChar =
      (text.data.takeWhile (fun c => c ≠ '.')).map lowerChar := by
    by_cases hdot : (text.data.map lowerChar).contains '.'
    · rw [if_pos hdot, splitOnChar_headD, takeWhile_dot_map, map_lowerChar_idem]
    · rw [if_neg hdot, map_lowerChar_idem,
        no_dot_of_map (Bool.of_not_eq_true hdot)]
  rw [hkey]

/-! ### Claim theorems -/

/-- Claim C1 (code bug): the claimed round trip
`parseDuration "120 seconds" = parseDuration "2 minutes" = 2.0` fails on
the code: `"2 minutes"` ends in `'s'`, so the seconds branch fires and the
parser returns `2/60` minutes, contradicting the function's own docstring
(which lists "2 minutes" and "1.5 minutes" as supported formats). -/
theorem claim1_parse_duration_bug :
    parse_duration "120 seconds" = 2 ∧
    parse_duration "2 minutes" = qdiv 2 60 ∧
    parse_duration "2 minutes" ≠ parse_duration "120 seconds" := by
  refine ⟨by decide, by decide, by decide⟩

/-- Claim C2 (counterexample): the payload `"{}"` is valid JSON and lacks a
`script` array, yet construction succeeds (with `script` defaulting to the
empty array) instead of failing with a parse error as the claim demands. -/
theorem claim2_missing_script_accepted :
    jsonHasKey (Json.obj []) "script" = false ∧
    parseJson (stripFence "\x7b\x7d") = some (Json.obj []) ∧
    initEvaluator "\x7b\x7d" = Except.ok (Json.arr [], Json.arr []) :=
  ⟨rfl, rfl, rfl⟩

/-- Claim C2 (amended): construction fails with a parse error exactly when
the payload is not valid JSON after fence-stripping; every payload parsing
to a JSON object is accepted (with missing `plan`/`script` defaulting to
empty arrays), producing no parse error. -/
theorem claim2_parse_error_iff :
    ∀ payload : String,
      (initEvaluator payload = Except.error PyError.parseError ↔
        parseJson (stripFence payload) = none) ∧
      (∀ kvs, parseJson (stripFence payload) = some (Json.obj kvs) →
        ∃ planJ scriptJ, initEvaluator payload = Except.ok (planJ, scriptJ)) := by
  intro payload
  rcases h : parseJson (stripFence payload) with _ | j
  · refine ⟨⟨fun _ => rfl, fun _ => ?_⟩, fun kvs hk => absurd hk (by simp)⟩
    simp [initEvaluator, h]
  · refine ⟨⟨fun he => ?_, fun hn => absurd hn (by simp)⟩, fun kvs hk => ?_⟩
    · cases j <;> simp [initEvaluator, h] at he
    · rw [Option.some.injEq] at hk
      subst hk
      exact ⟨jsonGetD kvs "plan" (Json.arr []), jsonGetD kvs "script" (Json.arr []),
        by simp [initEvaluator, h]⟩

/-- Claim C2 (witness): the amended theorem applied to the object payload
`"{}"`. -/
theorem claim2_witness :
    ∃ planJ scriptJ, initEvaluator "\x7b\x7d" = Except.ok (planJ, scriptJ) :=
  (claim2_parse_error_iff "\x7b\x7d").2 [] rfl

/-- Claim C3 (counterexample): for a plan with parsed durations
`[0.5, 0.5, 10]`, the pace score is not `1 − 1/3` as the claim states. -/
theorem claim3_pace_counterexample :
    timedDurations [⟨1, none, some "0.5 minute"⟩, ⟨2, none, some "0.5 minute"⟩,
        ⟨3, none, some "10 min"⟩] = [qdiv 1 2, qdiv 1 2, 10] ∧
    evaluate_pace [⟨1, none, some "0.5 minute"⟩, ⟨2, none, some "0.5 minute"⟩,
        ⟨3, none, some "10 min"⟩] ≠ qsub 1 (qdiv 1 3) := by
  refine ⟨by decide, by decide⟩

/-- Claim C3 (amended): with durations `[0.5, 0.5, 10]` the mean is `11/3`,
so the two `0.5` items are extreme too (`0.5 < 0.5 × mean`), not only the
`10` (`10 > 2 × mean`); all three are flagged and the pace score is
`1 − 3/3 = 0`. -/
theorem claim3_pace_all_extreme :
    timedDurations [⟨1, none, some "0.5 minute"⟩, ⟨2, none, some "0.5 minute"⟩,
        ⟨3, none, some "10 min"⟩] = [qdiv 1 2, qdiv 1 2, 10] ∧
    qdiv (qsum [qdiv 1 2, qdiv 1 2, 10]) 3 = qdiv 11 3 ∧
    ([qdiv 1 2, qdiv 1 2, (10:ℚ)].countP (fun d =>
      decide (qmul (qdiv 11 3) 2 < d) || decide (d < qmul (qdiv 11 3) (qdiv 1 2)))) = 3 ∧
    evaluate_pace [⟨1, none, some "0.5 minute"⟩, ⟨2, none, some "0.5 minute"⟩,
        ⟨3, none, some "10 min"⟩] = 0 := by
  refine ⟨by decide, by decide, by decide, by decide⟩

/-- Claim C4: for every script, the transitions sub-metric equals the
claim's formulation: the count of items after the first whose leading
clause (text up to the first sentence terminator, the period) contains a
transition phrase case-insensitively, divided by `itemCount − 1`, and `1`
when the script has at most one item. -/
theorem claim4_transitions_spec :
    ∀ script : List ScriptItem, evaluate_transitions script = transitionsSpec script := by
  intro script
  unfold evaluate_transitions transitionsSpec
  dsimp only
  by_cases hl : script.length ≤ 1
  · rw [if_neg (by omega), if_pos hl]
  · rw [if_pos (by omega), if_neg hl, List.drop_one]
    congr 1
    · rw [← List.countP_eq_length_filter]
      have hfun : (fun s : ScriptItem => transitionHit s.text) =
          (fun s : ScriptItem => transitionHitSpec s.text) := by
        funext s
        exact transitionHit_eq_spec s.text
      rw [hfun]
    · rw [qsub_eq]
      push_cast
      ring

/-- Claim C5: for every input — any slide text, any plan and script items
carrying the expected keys (including the empty string and empty lists) —
evaluation is total by construction and every sub-metric and every
dimension overall score, as well as the weighted overall score, lies in
`[0,1]`, for an arbitrary model `sqrtQ` of `math.sqrt`. -/
theorem claim5_submetrics_in_unit_interval :
    ∀ (sqrtQ : ℚ → ℚ) (slides : String) (plan : List PlanItem) (script : List ScriptItem),
      unit01 (evaluate_all sqrtQ slides plan script).content_consistency.keyword_coverage ∧
      unit01 (evaluate_all sqrtQ slides plan script).content_consistency.concept_coverage ∧
      unit01 (evaluate_all sqrtQ slides plan script).content_consistency.slide_title_coverage ∧
      unit01 (evaluate_all sqrtQ slides plan script).content_consistency.fact_accuracy ∧
      unit01 (evaluate_all sqrtQ slides plan script).content_consistency.hallucination_risk_score ∧
      unit01 (evaluate_all sqrtQ slides plan script).content_consistency.overall_score ∧
      unit01 (evaluate_all sqrtQ slides plan script).structure_dim.coherence_score ∧
      unit01 (evaluate_all sqrtQ slides plan script).structure_dim.time_balance_score ∧
      unit01 (evaluate_all sqrtQ slides plan script).structure_dim.transition_score ∧
      unit01 (evaluate_all sqrtQ slides plan script).structure_dim.organization_score ∧
      unit01 (evaluate_all sqrtQ slides plan script).structure_dim.overall_score ∧
      unit01 (evaluate_all sqrtQ slides plan script).language_quality.clarity_score ∧
      unit01 (evaluate_all sqrtQ slides plan script).language_quality.conversational_score ∧
      unit01 (evaluate_all sqrtQ slides plan script).language_quality.vocabulary_richness ∧
      unit01 (evaluate_all sqrtQ slides plan script).language_quality.professionalism_score ∧
      unit01 (evaluate_all sqrtQ slides plan script).language_quality.overall_score ∧
      unit01 (evaluate_all sqrtQ slides plan script).detail_richness.expansion_ratio_score ∧
      unit01 (evaluate_all sqrtQ slides plan script).detail_richness.example_usage_score ∧
      unit01 (evaluate_all sqrtQ slides plan script).detail_richness.explanation_quality ∧
      unit01 (evaluate_all sqrtQ slides plan script).detail_richness.context_provision ∧
      unit01 (evaluate_all sqrtQ slides plan script).detail_richness.overall_score ∧
      unit01 (evaluate_all sqrtQ slides plan script).time_management.duration_appropriateness ∧
      unit01 (evaluate_all sqrtQ slides plan script).time_management.time_distribution_score ∧
      unit01 (evaluate_all sqrtQ slides plan script).time_management.pace_consistency ∧
      unit01 (evaluate_all sqrtQ slides plan script).time_management.overall_score ∧
      unit01 (evaluate_all sqrtQ slides plan script).overall_score := by
  intro f sl p sc
  simp only [evaluate_all, evaluate_content_consistency, evaluate_structure_dim,
    evaluate_language_quality, evaluate_detail_richness, evaluate_time_management]
  exact ⟨cc_keyword_coverage_unit _ _, cc_concept_coverage_unit _ _, title_coverage_unit _ _,
    fact_accuracy_unit _ _, cc_hallucination_unit _ _, cc_overall_unit _ _ _,
    coherence_unit _ _, time_balance_unit _ _, transitions_unit _, organization_unit _,
    structure_overall_unit _ _ _,
    clarity_unit _, conversational_unit _, vocabulary_unit _, professionalism_unit _,
    language_overall_unit _,
    expansion_unit _ _, example_usage_unit _, explanations_unit _, context_unit _,
    detail_overall_unit _ _,
    tm_duration_appropriateness_unit _, time_distribution_unit _, pace_unit _,
    time_overall_unit _,
    overall_weighted_unit _ _ _ _⟩

/-- The rank of the grade at a score, as a single threshold chain. -/
theorem gradeRank_get_grade (s : ℚ) : gradeRank (get_grade s) =
    if qdiv 90 100 ≤ s then 7
    else if qdiv 85 100 ≤ s then 6
    else if qdiv 80 100 ≤ s then 5
    else if qdiv 75 100 ≤ s then 4
    else if qdiv 70 100 ≤ s then 3
    else if qdiv 65 100 ≤ s then 2
    else if qdiv 60 100 ≤ s then 1
    else 0 := by
  unfold get_grade
  split_ifs <;> decide

set_option maxHeartbeats 3200000 in
/-- Claim C6: the grade is the strict-descending threshold lookup of the
source (`≥0.90→A+`, `≥0.85→A`, `≥0.80→B+`, `≥0.75→B`, `≥0.70→C+`,
`≥0.65→C`, `≥0.60→D`, else `F`), and grading is monotone in the score. -/
theorem claim6_grade_thresholds_monotone :
    (∀ s : ℚ,
      (qdiv 90 100 ≤ s → get_grade s = "A+ (优秀)") ∧
      (qdiv 85 100 ≤ s ∧ s < qdiv 90 100 → get_grade s = "A (优秀)") ∧
      (qdiv 80 100 ≤ s ∧ s < qdiv 85 100 → get_grade s = "B+ (良好)") ∧
      (qdiv 75 100 ≤ s ∧ s < qdiv 80 100 → get_grade s = "B (良好)") ∧
      (qdiv 70 100 ≤ s ∧ s < qdiv 75 100 → get_grade s = "C+ (中等)") ∧
      (qdiv 65 100 ≤ s ∧ s < qdiv 70 100 → get_grade s = "C (中等)") ∧
      (qdiv 60 100 ≤ s ∧ s < qdiv 65 100 → get_grade s = "D (及格)") ∧
      (s < qdiv 60 100 → get_grade s = "F (不及格)")) ∧
    ∀ a b : ℚ, b ≤ a → gradeRank (get_grade b) ≤ gradeRank (get_grade a) := by
  constructor
  · intro s
    unfold get_grade
    simp only [qdiv_eq]
    refine ⟨fun h => ?_, fun h => ?_, fun h => ?_, fun h => ?_, fun h => ?_, fun h => ?_,
      fun h => ?_, fun h => ?_⟩
    · rw [if_pos h]
    · obtain ⟨h1, h2⟩ := h
      rw [if_neg (by linarith), if_pos h1]
    · obtain ⟨h1, h2⟩ := h
      rw [if_neg (by linarith), if_neg (by linarith), if_pos h1]
    · obtain ⟨h1, h2⟩ := h
      rw [if_neg (by linarith), if_neg (by linarith), if_neg (by linarith), if_pos h1]
    · obtain ⟨h1, h2⟩ := h
      rw [if_neg (by linarith), if_neg (by linarith), if_neg (by linarith),
        if_neg (by linarith), if_pos h1]
    · obtain ⟨h1, h2⟩ := h
      rw [if_neg (by linarith), if_neg (by linarith), if_neg (by linarith),
        if_neg (by linarith), if_neg (by linarith), if_pos h1]
    · obtain ⟨h1, h2⟩ := h
      rw [if_neg (by linarith), if_neg (by linarith), if_neg (by linarith),
        if_neg (by linarith), if_neg (by linarith), if_neg (by linarith), if_pos h1]
    · rw [if_neg (by linarith), if_neg (by linarith), if_neg (by linarith),
        if_neg (by linarith), if_neg (by linarith), if_neg (by linarith), if_neg (by linarith)]
  · intro a b hba
    rw [gradeRank_get_grade, gradeRank_get_grade]
    simp only [qdiv_eq]
    split_ifs <;> first | omega | linarith

/-- Claim C6 (witness): applied at the concrete scores 0.92 and 0.71. -/
theorem claim6_witness :
    gradeRank (get_grade (qdiv 71 100)) ≤ gradeRank (get_grade (qdiv 92 100)) ∧
    get_grade (qdiv 92 100) = "A+ (优秀)" :=
  ⟨claim6_grade_thresholds_monotone.2 (qdiv 92 100) (qdiv 71 100) (by decide),
   (claim6_grade_thresholds_monotone.1 (qdiv 92 100)).1 (by decide)⟩

/-- Claim C7: the dimension weights are the fixed constants 0.30, 0.25,
0.20, 0.15, 0.10, they sum exactly to 1, and the overall score is the
weighted sum of the five dimension overall scores. -/
theorem claim7_weights :
    (weight_content = 3/10 ∧ weight_structure = 1/4 ∧ weight_language = 1/5 ∧
      weight_detail = 3/20 ∧ weight_time = 1/10 ∧
      weight_content + weight_structure + weight_language + weight_detail + weight_time = 1) ∧
    ∀ (sqrtQ : ℚ → ℚ) (slides : String) (plan : List PlanItem) (script : List ScriptItem),
      (evaluate_all sqrtQ slides plan script).overall_score =
        weight_content * (evaluate_all sqrtQ slides plan script).content_consistency.overall_score +
        weight_structure * (evaluate_all sqrtQ slides plan script).structure_dim.overall_score +
        weight_language * (evaluate_all sqrtQ slides plan script).language_quality.overall_score +
        weight_detail * (evaluate_all sqrtQ slides plan script).detail_richness.overall_score +
        weight_time * (evaluate_all sqrtQ slides plan script).time_management.overall_score := by
  constructor
  · refine ⟨?_, ?_, ?_, ?_, ?_, ?_⟩ <;>
      simp only [weight_content, weight_structure, weight_language, weight_detail,
        weight_time, qdiv_eq] <;> norm_num
  · intro f sl p sc
    simp only [evaluate_all, evaluate_content_consistency, evaluate_structure_dim,
      evaluate_language_quality, evaluate_detail_richness, evaluate_time_management,
      overall_weighted]
    simp only [qadd_eq, qmul_eq]
    ring

/-- Claim C8: `coverage(S, T) = 1` whenever the source is empty, for every
target; and in the scenario with empty slide text and a one-item script
with non-empty text, the keyword coverage is 1, the expansion-ratio score
is 0 (the slide word count is 0), and the run completes (the evaluator is
a total function, so a result exists for every `sqrtQ` model). -/
theorem claim8_empty_source_coverage :
    (∀ target : List String, calculate_coverage [] target = 1) ∧
    ∀ sqrtQ : ℚ → ℚ,
      (evaluate_all sqrtQ "" [] [⟨1, "hello world"⟩]).content_consistency.keyword_coverage = 1 ∧
      (evaluate_all sqrtQ "" [] [⟨1, "hello world"⟩]).detail_richness.expansion_ratio_score = 0 := by
  refine ⟨fun t => rfl, fun f => ⟨?_, ?_⟩⟩
  · simp only [evaluate_all, evaluate_content_consistency]
    decide
  · simp only [evaluate_all, evaluate_detail_richness]
    decide

/-- `any` over an enumerated nonempty list is true when the predicate
accepts index 0. -/
theorem enum_any_first {α} (f : α → Bool) (l : List α) (h : l ≠ []) :
    (l.enum.any fun ip => f ip.2 || ip.1 == 0) = true := by
  cases l with
  | nil => exact absurd rfl h
  | cons a t => simp [List.enum, List.enumFrom]

/-- `any` over an enumeration starting at `n` is true when the predicate
accepts the index of the last element. -/
theorem enumFrom_any_last {α} (f : α → Bool) (L : ℕ) :
    ∀ (l : List α) (n : ℕ), l ≠ [] → L = n + l.length - 1 →
      ((l.enumFrom n).any fun ip => f ip.2 || ip.1 == L) = true := by
  intro l
  induction l with
  | nil => intro n h _; exact absurd rfl h
  | cons a t ih =>
    intro n _ hL
    cases t with
    | nil =>
      have : L = n := by simpa using hL
      simp [List.enumFrom, this]
    | cons b t2 =>
      have hrec := ih (n + 1) (by simp) (by simp only [List.length_cons] at hL ⊢; omega)
      have hstep : List.enumFrom n (a :: b :: t2) = (n, a) :: List.enumFrom (n + 1) (b :: t2) := rfl
      rw [hstep, List.any_cons, hrec, Bool.or_true]

/-- Claim C9: for every non-empty plan, both the introduction and the
conclusion `any`-checks of `_evaluate_organization` hold by position alone
(index 0 and index `len−1` exist), so the organization score is `1` when
the plan has at least 3 items and `2/3` otherwise, regardless of titles. -/
theorem claim9_organization :
    ∀ plan : List PlanItem, plan ≠ [] →
      (plan.enum.any fun ip => introTitleHit ip.2 || ip.1 == 0) = true ∧
      (plan.enum.any fun ip => conclTitleHit ip.2 || ip.1 == plan.length - 1) = true ∧
      evaluate_organization plan = if 3 ≤ plan.length then 1 else qdiv 2 3 := by
  intro plan hne
  have h1 := enum_any_first (fun p => introTitleHit p) plan hne
  have h2 : (plan.enum.any fun ip => conclTitleHit ip.2 || ip.1 == plan.length - 1) = true := by
    have := enumFrom_any_last (fun p => conclTitleHit p) (plan.length - 1) plan 0 hne (by omega)
    simpa [List.enum] using this
  refine ⟨h1, h2, ?_⟩
  unfold evaluate_organization
  dsimp only
  rw [h1, h2]
  by_cases hb : 3 ≤ plan.length
  · rw [if_pos hb, decide_eq_true hb]
    simp only [b2q, if_true]
    rw [qdiv_eq, qadd_eq, qadd_eq]
    norm_num
  · rw [if_neg hb, decide_eq_false hb]
    simp only [b2q, if_true, if_false]
    rw [qdiv_eq, qadd_eq, qadd_eq, qdiv_eq]
    norm_num

/-- Claim C9 (witness): the theorem applied to concrete one-item and
three-item plans. -/
theorem claim9_witness :
    evaluate_organization [⟨1, some "Body", none⟩] = qdiv 2 3 ∧
    evaluate_organization [⟨1, none, none⟩, ⟨2, none, none⟩, ⟨3, none, none⟩] = 1 := by
  constructor
  · have h := (claim9_organization [⟨1, some "Body", none⟩] (by simp)).2.2
    norm_num at h
    exact h
  · have h := (claim9_organization [⟨1, none, none⟩, ⟨2, none, none⟩, ⟨3, none, none⟩]
      (by simp)).2.2
    norm_num at h
    exact h

/-! ### Dynamic key accesses (claim C10 support) -/

/-- A script item with a missing `text` or `slide` key raises `KeyError`. -/
theorem toScriptItem_err (s : ScriptItemD) (h : s.text = none ∨ s.slide = none) :
    toScriptItem s = Except.error PyError.keyError := by
  obtain ⟨sl, tx⟩ := s
  unfold toScriptItem keyGet
  rcases h with h | h <;> simp only at h <;> subst h
  · rfl
  · cases tx <;> rfl

/-- A script item carrying both keys converts successfully. -/
theorem toScriptItem_ok (s : ScriptItemD) (ht : s.text ≠ none) (hs : s.slide ≠ none) :
    ∃ y, toScriptItem s = Except.ok y := by
  obtain ⟨sl, tx⟩ := s
  simp only at ht hs
  cases tx with
  | none => exact absurd rfl ht
  | some t =>
    cases sl with
    | none => exact absurd rfl hs
    | some v => exact ⟨_, rfl⟩

/-- A plan item with a missing `slide` key raises `KeyError`. -/
theorem toPlanItem_err (p : PlanItemD) (h : p.slide = none) :
    toPlanItem p = Except.error PyError.keyError := by
  obtain ⟨sl, ti, du⟩ := p
  simp only at h
  subst h
  rfl

/-- A plan item carrying `slide` converts successfully (missing `title` or
`duration` are tolerated). -/
theorem toPlanItem_ok (p : PlanItemD) (h : p.slide ≠ none) :
    ∃ y, toPlanItem p = Except.ok y := by
  obtain ⟨sl, ti, du⟩ := p
  simp only at h
  cases sl with
  | none => exact absurd rfl h
  | some v => exact ⟨_, rfl⟩

/-- When every element converts, the error-propagating map succeeds. -/
theorem mapExcept_ok {α β : Type} (f : α → Except PyError β) :
    ∀ l : List α, (∀ x ∈ l, ∃ y, f x = Except.ok y) →
      ∃ ys, mapExcept f l = Except.ok ys := by
  intro l
  induction l with
  | nil => exact fun _ => ⟨[], rfl⟩
  | cons a t ih =>
    intro h
    obtain ⟨y, hy⟩ := h a (by simp)
    obtain ⟨ys, hys⟩ := ih (fun x hx => h x (by simp [hx]))
    exact ⟨y :: ys, by unfold mapExcept; rw [hy, hys]⟩

/-- When some element raises `KeyError` and no other error kind can arise,
the error-propagating map raises `KeyError`. -/
theorem mapExcept_keyError {α β : Type} (f : α → Except PyError β)
    (hall : ∀ x, f x = Except.error PyError.keyError ∨ ∃ y, f x = Except.ok y) :
    ∀ l : List α, (∃ x ∈ l, f x = Except.error PyError.keyError) →
      mapExcept f l = Except.error PyError.keyError := by
  intro l
  induction l with
  | nil => rintro ⟨x, hx, _⟩; simp at hx
  | cons a t ih =>
    rintro ⟨x, hx, hfx⟩
    rcases hall a with ha | ⟨y, hy⟩
    · unfold mapExcept
      rw [ha]
    · unfold mapExcept
      rw [hy]
      have hxt : x ∈ t := by
        rcases List.mem_cons.mp hx with rfl | hxt
        · rw [hfx] at hy
          exact absurd hy (by simp)
        · exact hxt
      rw [ih ⟨x, hxt, hfx⟩]

/-- Claim C10: for payloads whose plan/script items may lack keys, a script
item without `text`, or any plan or script item without `slide`, makes
evaluation raise `KeyError` instead of returning a result; items missing
only `title` or `duration` are tolerated through `.get` defaults and
evaluation completes. -/
theorem claim10_dynamic_key_errors :
    ∀ (sqrtQ : ℚ → ℚ) (slides : String) (plan : List PlanItemD) (script : List ScriptItemD),
      (((∃ s ∈ script, s.text = none) ∨ (∃ s ∈ script, s.slide = none) ∨
          (∃ p ∈ plan, p.slide = none)) →
        evalAllDyn sqrtQ slides plan script = Except.error PyError.keyError) ∧
      ((∀ s ∈ script, s.text ≠ none) → (∀ s ∈ script, s.slide ≠ none) →
        (∀ p ∈ plan, p.slide ≠ none) →
        ∃ r, evalAllDyn sqrtQ slides plan script = Except.ok r) := by
  intro f sl plan script
  have hallS : ∀ s : ScriptItemD, toScriptItem s = Except.error PyError.keyError ∨
      ∃ y, toScriptItem s = Except.ok y := by
    intro s
    by_cases ht : s.text = none
    · exact Or.inl (toScriptItem_err s (Or.inl ht))
    · by_cases hs : s.slide = none
      · exact Or.inl (toScriptItem_err s (Or.inr hs))
      · exact Or.inr (toScriptItem_ok s ht hs)
  have hallP : ∀ p : PlanItemD, toPlanItem p = Except.error PyError.keyError ∨
      ∃ y, toPlanItem p = Except.ok y := by
    intro p
    by_cases hp : p.slide = none
    · exact Or.inl (toPlanItem_err p hp)
    · exact Or.inr (toPlanItem_ok p hp)
  constructor
  · intro hbad
    by_cases hs : ∃ s ∈ script, toScriptItem s = Except.error PyError.keyError
    · have := mapExcept_keyError toScriptItem hallS script hs
      unfold evalAllDyn
      rw [this]
    · push_neg at hs
      have hokS : ∀ s ∈ script, ∃ y, toScriptItem s = Except.ok y := by
        intro s hmem
        rcases hallS s with h | h
        · exact absurd h (hs s hmem)
        · exact h
      obtain ⟨ys, hys⟩ := mapExcept_ok toScriptItem script hokS
      have hplanbad : ∃ p ∈ plan, p.slide = none := by
        rcases hbad with ⟨s, hmem, htx⟩ | ⟨s, hmem, hsl⟩ | hp
        · exact absurd (toScriptItem_err s (Or.inl htx)) (hs s hmem)
        · exact absurd (toScriptItem_err s (Or.inr hsl)) (hs s hmem)
        · exact hp
      obtain ⟨p, hpmem, hpsl⟩ := hplanbad
      have := mapExcept_keyError toPlanItem hallP plan
        ⟨p, hpmem, toPlanItem_err p hpsl⟩
      unfold evalAllDyn
      rw [hys, this]
  · intro h1 h2 h3
    obtain ⟨ys, hys⟩ := mapExcept_ok toScriptItem script
      (fun s hm => toScriptItem_ok s (h1 s hm) (h2 s hm))
    obtain ⟨ps, hps⟩ := mapExcept_ok toPlanItem plan
      (fun p hm => toPlanItem_ok p (h3 p hm))
    refine ⟨evaluate_all f sl ps ys, ?_⟩
    unfold evalAllDyn
    rw [hys, hps]

/-- Claim C10 (witness): the theorem applied to a script item lacking
`text` (error) and to a plan item lacking `title`/`duration` next to a
complete script item (success). -/
theorem claim10_witness :
    evalAllDyn (fun q => q) "" [] [⟨some 1, none⟩] = Except.error PyError.keyError ∧
    (∃ r, evalAllDyn (fun q => q) "" [⟨some 1, none, none⟩] [⟨some 1, some "hi"⟩] =
      Except.ok r) := by
  constructor
  · exact (claim10_dynamic_key_errors (fun q => q) "" [] [⟨some 1, none⟩]).1
      (Or.inl ⟨⟨some 1, none⟩, by simp, rfl⟩)
  · exact (claim10_dynamic_key_errors (fun q => q) "" [⟨some 1, none, none⟩]
      [⟨some 1, some "hi"⟩]).2 (by simp) (by simp) (by simp)

end Speech
